import Mathlib

/-!
# SNAP_MPI_OpenCL: rank geometry, halo exchange, allocation and plane launch

A shallow embedding of `comms.c`, `allocate.c` and `ocl_sweep.c`.

The C functions talk to three outside parties: the MPI library, the OpenCL
runtime and the C runtime (`fprintf`, `exit`, `malloc`).  Every call that
crosses that border is recorded, in program order, in a trace of `Event`s.
What the libraries answer is not decided by the program, so the answers are
parameters: a value of `MPI`, `CL` or `Libc` fixes what each call answers,
and the answer may depend on everything that happened before the call, so
that two calls with the same arguments can get different answers.

`exit` ends the run: the outcome of a run is either `returned a` or
`exited status`, and nothing is appended to the trace after an `exit`.  The
status of an exited run is what the parent process sees, the low eight bits
of the argument of `exit`.

Integer fields of `struct problem` and `struct rankinfo` are declared in
`problem.h`, which is not among the sources; their values are integers
(`Int`).  Where the source hands a product to a parameter of a known C type
the conversion is explicit: `c_int` for the `int count` of `MPI_Recv` and
`MPI_Send`, and arithmetic modulo `2^64` for the `size_t` byte sizes formed
with `sizeof(double)`.  The division `/` of C truncates towards zero and is
`Int.tdiv`; a zero divisor is undefined in C and statements that depend on a
quotient assume a non-zero divisor.
-/

namespace Snap

/-! ## Data model -/

/-- The fields of `struct problem` read by the embedded functions. -/
structure problem where
  nx : Int
  ny : Int
  nz : Int
  npex : Int
  npey : Int
  npez : Int
  nang : Int
  ng : Int
  cmom : Int
deriving DecidableEq, Repr

/-- The fields of `struct rankinfo` written by `setup_comms` and
`calculate_neighbours`; `ranks` is the array `ranks[3]`. -/
structure rankinfo where
  rank : Int
  ranks : Int × Int × Int
  nx : Int
  ny : Int
  nz : Int
  ilb : Int
  iub : Int
  jlb : Int
  jub : Int
  klb : Int
  kub : Int
  xup : Int
  xdown : Int
  yup : Int
  ydown : Int
  zup : Int
  zdown : Int
deriving DecidableEq, Repr

/-- The three edge arrays; the same names are used for the host arrays
`memory->flux_*` and for the device buffers `buffers->flux_*`. -/
inductive Edge where
  | flux_i
  | flux_j
  | flux_k
deriving DecidableEq, Repr

/-- The kernels held in `context->kernels` that the embedded code launches. -/
inductive Kernel where
  | sweep_plane
deriving DecidableEq, Repr

/-! ## C integer types -/

/-- The value of `sizeof(double)`. -/
def sizeof_double : Nat := 8

/-- The number of values of `size_t`, `2^64`. -/
def SIZE_MODULUS : Nat := 18446744073709551616

/-- The conversion of an integer to `size_t`: its value modulo `2^64`. -/
def size_t (v : Int) : Nat := (v % (SIZE_MODULUS : Int)).toNat

/-- The product `a * b` of a `size_t` and an integer operand: the operand is
converted to `size_t` and the product is taken modulo `2^64`. -/
def size_t_mul (a : Nat) (b : Int) : Nat := (a * size_t b) % SIZE_MODULUS

/-- The expression `a * b1 * b2 * ...` with `a` of type `size_t`, evaluated
from the left as C does. -/
def size_t_prod (a : Nat) (bs : List Int) : Nat := bs.foldl size_t_mul a

/-- The value an `int` parameter (32 bits, two's complement) receives for an
integer argument. -/
def c_int (v : Int) : Int := (v + 2147483648) % 4294967296 - 2147483648

/-- The exit status the parent process sees for `exit(status)`: the low eight
bits of `status`. -/
def exit_status (status : Int) : Int := status % 256

/-! ## Calls across the library border -/

/-- A pointer value: the null pointer or an address. -/
inductive Ptr where
  | NULL
  | addr (a : Nat)
deriving DecidableEq, Repr

/-- The MPI calls made by `comms.c`, with the arguments the program chooses.
For `Recv` and `Send` these are the host array, the element count and the
peer rank; the datatype is always `MPI_DOUBLE`, the tag `MPI_ANY_TAG` on
receive and `0` on send, the communicator `snap_comms`. -/
inductive MpiCall where
  | Cart_create (dims : Int × Int × Int) (periods : Int × Int × Int) (reorder : Int)
  | Comm_rank
  | Cart_coords (rank : Int)
  | Cart_rank (coords : Int × Int × Int)
  | Recv (buf : Edge) (count : Int) (source : Int)
  | Send (buf : Edge) (count : Int) (dest : Int)
  | Finalize
deriving DecidableEq, Repr

/-- The OpenCL calls made by `comms.c` and `ocl_sweep.c`.  The size of a
transfer is in bytes.  A `none` for `global_work_offset` or `local_work_size`
is the null pointer argument. -/
inductive ClCall where
  | EnqueueWriteBuffer (buffer : Edge) (blocking : Bool) (offset : Nat) (size : Nat)
      (host : Edge)
  | EnqueueReadBuffer (buffer : Edge) (blocking : Bool) (offset : Nat) (size : Nat)
      (host : Edge)
  | EnqueueNDRangeKernel (kernel : Kernel) (work_dim : Int)
      (global_work_offset : Option (List Int)) (global_work_size : List Int)
      (local_work_size : Option (List Int))
deriving DecidableEq, Repr

/-- One observable action of a rank.  Library calls carry what the library
answered: the return code, or the pointer returned by `malloc`. -/
inductive Event where
  | mpi (call : MpiCall) (ret : Int)
  | cl (call : ClCall) (ret : Int)
  | zero_buffer (buffer : Edge) (n : Int)
  | malloc (size : Nat) (ret : Ptr)
  | fprintf_stderr (text : String)
  | exit (status : Int)
deriving DecidableEq, Repr

/-- What the MPI library answers.  `ret past call` is the return code of
`call` made after the events `past`; the other fields are the rank written by
`MPI_Comm_rank`, the coordinates written by `MPI_Cart_coords` and the rank
written by `MPI_Cart_rank`, which are fixed by the topology. -/
structure MPI where
  ret : List Event → MpiCall → Int
  comm_rank : Int
  cart_coords : Int → Int × Int × Int
  cart_rank : Int × Int × Int → Int

/-- What the OpenCL runtime answers: `ret past call` is the return code of
`call` made after the events `past`. -/
structure CL where
  ret : List Event → ClCall → Int

/-- What the C runtime answers: `malloc past size` is the pointer returned by
`malloc(size)` called after the events `past`; it may be `NULL`. -/
structure Libc where
  malloc : List Event → Nat → Ptr

/-- The value of `MPI_SUCCESS` in `mpi.h`. -/
def MPI_SUCCESS : Int := 0

/-- The value of `CL_SUCCESS` in `cl.h`. -/
def CL_SUCCESS : Int := 0

/-! ## Runs -/

/-- How a run ends: the function returns a value, or the process has called
`exit` and ended with a status. -/
inductive Outcome (α : Type) where
  | returned (value : α)
  | exited (status : Int)
deriving DecidableEq, Repr

/-- What a piece of program did: the events it produced and how it ended. -/
structure Result (α : Type) where
  trace : List Event
  outcome : Outcome α
deriving DecidableEq, Repr

/-- A piece of program: given the events that came before it, what it does. -/
def Run (α : Type) : Type := List Event → Result α

/-- The program that returns `a` and does nothing. -/
def Run.pure {α : Type} (a : α) : Run α := fun _ => ⟨[], .returned a⟩

/-- Sequencing: the second part runs only if the first one returned, and it
comes after the events of the first. -/
def Run.bind {α β : Type} (m : Run α) (k : α → Run β) : Run β := fun past =>
  match (m past).outcome with
  | .returned a =>
      ⟨(m past).trace ++ (k a (past ++ (m past).trace)).trace,
       (k a (past ++ (m past).trace)).outcome⟩
  | .exited s => ⟨(m past).trace, .exited s⟩

instance : Monad Run where
  pure := Run.pure
  bind := Run.bind

/-- Record one event and go on. -/
def emit (e : Event) : Run Unit := fun _ => ⟨[e], .returned ()⟩

/-- The call `exit(status)`: the process ends with the low eight bits of
`status`. -/
def exit {α : Type} (status : Int) : Run α :=
  fun _ => ⟨[.exit status], .exited (exit_status status)⟩

/-- The call `fprintf(stderr, ...)` with the formatted text. -/
def fprintf_stderr (text : String) : Run Unit := emit (.fprintf_stderr text)

/-- An MPI call: recorded with its return code, which is handed back. -/
def mpi_call (mpi : MPI) (c : MpiCall) : Run Int :=
  fun past => ⟨[.mpi c (mpi.ret past c)], .returned (mpi.ret past c)⟩

/-- An OpenCL call: recorded with its return code, which is handed back. -/
def cl_call (cl : CL) (c : ClCall) : Run Int :=
  fun past => ⟨[.cl c (cl.ret past c)], .returned (cl.ret past c)⟩

/-- The call `malloc(size)`: recorded with the pointer it returns. -/
def malloc (libc : Libc) (size : Nat) : Run Ptr :=
  fun past => ⟨[.malloc size (libc.malloc past size)], .returned (libc.malloc past size)⟩

/-! ## comms.c -/

/-- The text printed by `fprintf(stderr, "MPI Error: %d. %s\n", err, msg)`. -/
def mpi_diagnostic (err : Int) (msg : String) : String :=
  "MPI Error: " ++ toString err ++ ". " ++ msg ++ "\n"

/-- The function `check_mpi` of `comms.c`. -/
def check_mpi (err : Int) (msg : String) : Run Unit :=
  if err ≠ MPI_SUCCESS then do
    fprintf_stderr (mpi_diagnostic err msg)
    exit err
  else
    pure ()

/-- The function `calculate_neighbours` of `comms.c`; `coords` is rebuilt
before each lookup exactly as the three assignments do. -/
def calculate_neighbours (mpi : MPI) (p : problem) (ri : rankinfo) :
    Run rankinfo := do
  -- x-dir + 1
  let coords : Int × Int × Int :=
    (if ri.ranks.1 = p.npex - 1 then ri.ranks.1 else ri.ranks.1 + 1,
     ri.ranks.2.1, ri.ranks.2.2)
  let mpi_err ← mpi_call mpi (.Cart_rank coords)
  let ri : rankinfo := { ri with xup := mpi.cart_rank coords }
  check_mpi mpi_err "Getting x+1 rank"
  -- x-dir - 1
  let coords : Int × Int × Int :=
    (if ri.ranks.1 = 0 then ri.ranks.1 else ri.ranks.1 - 1,
     ri.ranks.2.1, ri.ranks.2.2)
  let mpi_err ← mpi_call mpi (.Cart_rank coords)
  let ri : rankinfo := { ri with xdown := mpi.cart_rank coords }
  check_mpi mpi_err "Getting x-1 rank"
  -- y-dir + 1
  let coords : Int × Int × Int :=
    (ri.ranks.1,
     if ri.ranks.2.1 = p.npey - 1 then ri.ranks.2.1 else ri.ranks.2.1 + 1,
     ri.ranks.2.2)
  let mpi_err ← mpi_call mpi (.Cart_rank coords)
  let ri : rankinfo := { ri with yup := mpi.cart_rank coords }
  check_mpi mpi_err "Getting y+1 rank"
  -- y-dir - 1
  let coords : Int × Int × Int :=
    (ri.ranks.1,
     if ri.ranks.2.1 = 0 then ri.ranks.2.1 else ri.ranks.2.1 - 1,
     ri.ranks.2.2)
  let mpi_err ← mpi_call mpi (.Cart_rank coords)
  let ri : rankinfo := { ri with ydown := mpi.cart_rank coords }
  check_mpi mpi_err "Getting y-1 rank"
  -- z-dir + 1
  let coords : Int × Int × Int :=
    (ri.ranks.1, ri.ranks.2.1,
     if ri.ranks.2.2 = p.npez - 1 then ri.ranks.2.2 else ri.ranks.2.2 + 1)
  let mpi_err ← mpi_call mpi (.Cart_rank coords)
  let ri : rankinfo := { ri with zup := mpi.cart_rank coords }
  check_mpi mpi_err "Getting z+1 rank"
  -- z-dir - 1
  let coords : Int × Int × Int :=
    (ri.ranks.1, ri.ranks.2.1,
     if ri.ranks.2.2 = 0 then ri.ranks.2.2 else ri.ranks.2.2 - 1)
  let mpi_err ← mpi_call mpi (.Cart_rank coords)
  let ri : rankinfo := { ri with zdown := mpi.cart_rank coords }
  check_mpi mpi_err "Getting z-1 rank"
  pure ri

/-- The function `setup_comms` of `comms.c`. -/
def setup_comms (mpi : MPI) (p : problem) (ri : rankinfo) : Run rankinfo := do
  -- Create the MPI Cartesian topology
  let mpi_err ← mpi_call mpi (.Cart_create (p.npex, p.npey, p.npez) (0, 0, 0) 0)
  check_mpi mpi_err "Creating MPI Cart"
  -- Get my ranks in x, y and z
  let mpi_err ← mpi_call mpi .Comm_rank
  let ri : rankinfo := { ri with rank := mpi.comm_rank }
  check_mpi mpi_err "Getting MPI rank"
  let mpi_err ← mpi_call mpi (.Cart_coords ri.rank)
  let ri : rankinfo := { ri with ranks := mpi.cart_coords ri.rank }
  check_mpi mpi_err "Getting Cart co-ordinates"
  -- Calculate rankinfo sizes
  let ri : rankinfo := { ri with nx := Int.tdiv p.nx p.npex }
  let ri : rankinfo := { ri with ny := Int.tdiv p.ny p.npey }
  let ri : rankinfo := { ri with nz := Int.tdiv p.nz p.npez }
  -- Calculate i,j,k lower and upper bounds in terms of problem grid
  let ri : rankinfo := { ri with ilb := ri.ranks.1 * ri.nx }
  let ri : rankinfo := { ri with iub := (ri.ranks.1 + 1) * ri.nx }
  let ri : rankinfo := { ri with jlb := ri.ranks.2.1 * ri.ny }
  let ri : rankinfo := { ri with jub := (ri.ranks.2.1 + 1) * ri.ny }
  let ri : rankinfo := { ri with klb := ri.ranks.2.2 * ri.nz }
  let ri : rankinfo := { ri with kub := (ri.ranks.2.2 + 1) * ri.nz }
  -- Calculate neighbouring ranks
  calculate_neighbours mpi p ri

/-- The function `finish_comms` of `comms.c`. -/
def finish_comms (mpi : MPI) : Run Unit := do
  let mpi_err ← mpi_call mpi .Finalize
  check_mpi mpi_err "MPI_Finalize"

/-- Modelled from the spec: the text printed by `check_ocl`, which is defined
in `ocl_global.c`, not among the sources.  The spec fixes only that it holds
the operation name and the error code; the wording follows the one of
`check_mpi`. -/
def ocl_diagnostic (err : Int) (msg : String) : String :=
  "OpenCL Error: " ++ toString err ++ ". " ++ msg ++ "\n"

/-- Modelled from the spec: `check_ocl` is defined in `ocl_global.c`, which is
not among the sources.  The spec says an accelerator API failure is fatal and
terminates the rank with a diagnostic containing the operation name and the
underlying error code, the exit code being that error code. -/
def check_ocl (err : Int) (msg : String) : Run Unit :=
  if err ≠ CL_SUCCESS then do
    fprintf_stderr (ocl_diagnostic err msg)
    exit err
  else
    pure ()

/-- Modelled from the spec: `zero_buffer` is defined outside the sources.  The
spec says it enqueues a kernel that writes `n` zeros to `buf` and returns when
the enqueue is accepted.  The type of its parameter `n` is declared with it,
so `n` is kept as the value of the argument expression. -/
def zero_buffer (buffer : Edge) (n : Int) : Run Unit :=
  emit (.zero_buffer buffer n)

/-- The function `recv_boundaries` of `comms.c`. -/
def recv_boundaries (mpi : MPI) (cl : CL) (_octant istep jstep kstep : Int)
    (p : problem) (ri : rankinfo) : Run Unit := do
  -- Check if pencil has an external boundary for this sweep direction
  if (istep = -1 ∧ ri.iub = p.nx) ∨ (istep = 1 ∧ ri.ilb = 0) then
    zero_buffer .flux_i (p.nang * p.ng * ri.ny * ri.nz)
  else do
    if istep = -1 then do
      let mpi_err ← mpi_call mpi (.Recv .flux_i (c_int (p.nang * p.ng * ri.ny * ri.nz)) ri.xup)
      check_mpi mpi_err "Receiving from upward x neighbour"
    else do
      let mpi_err ← mpi_call mpi (.Recv .flux_i (c_int (p.nang * p.ng * ri.ny * ri.nz)) ri.xdown)
      check_mpi mpi_err "Receiving from downward x neighbour"
    -- Copy flux_i to the device
    let cl_err ← cl_call cl (.EnqueueWriteBuffer .flux_i true 0
      (size_t_prod sizeof_double [p.nang, p.ng, ri.ny, ri.nz]) .flux_i)
    check_ocl cl_err "Copying flux i buffer to device"
  if (jstep = -1 ∧ ri.jub = p.ny) ∨ (jstep = 1 ∧ ri.jlb = 0) then
    zero_buffer .flux_j (p.nang * p.ng * ri.nx * ri.nz)
  else do
    if jstep = -1 then do
      let mpi_err ← mpi_call mpi (.Recv .flux_j (c_int (p.nang * p.ng * ri.nx * ri.nz)) ri.yup)
      check_mpi mpi_err "Receiving from upward y neighbour"
    else do
      let mpi_err ← mpi_call mpi (.Recv .flux_j (c_int (p.nang * p.ng * ri.nx * ri.nz)) ri.ydown)
      check_mpi mpi_err "Receiving from downward y neighbour"
    let cl_err ← cl_call cl (.EnqueueWriteBuffer .flux_j true 0
      (size_t_prod sizeof_double [p.nang, p.ng, ri.nx, ri.nz]) .flux_j)
    check_ocl cl_err "Copying flux j buffer to device"
  if (kstep = -1 ∧ ri.kub = p.nz) ∨ (kstep = 1 ∧ ri.klb = 0) then
    zero_buffer .flux_k (p.nang * p.ng * ri.nx * ri.ny)
  else do
    if kstep = -1 then do
      let mpi_err ← mpi_call mpi (.Recv .flux_k (c_int (p.nang * p.ng * ri.nx * ri.ny)) ri.zup)
      check_mpi mpi_err "Receiving from upward z neighbour"
    else do
      let mpi_err ← mpi_call mpi (.Recv .flux_k (c_int (p.nang * p.ng * ri.nx * ri.ny)) ri.zdown)
      check_mpi mpi_err "Receiving from downward z neighbour"
    let cl_err ← cl_call cl (.EnqueueWriteBuffer .flux_k true 0
      (size_t_prod sizeof_double [p.nang, p.ng, ri.nx, ri.ny]) .flux_k)
    check_ocl cl_err "Copying flux k buffer to device"

/-- The function `send_boundaries` of `comms.c`. -/
def send_boundaries (mpi : MPI) (cl : CL) (_octant istep jstep kstep : Int)
    (p : problem) (ri : rankinfo) : Run Unit := do
  -- Get the edges off the device
  let cl_err ← cl_call cl (.EnqueueReadBuffer .flux_i false 0
    (size_t_prod sizeof_double [p.nang, p.ng, ri.ny, ri.nz]) .flux_i)
  check_ocl cl_err "Copying flux i buffer back to host"
  let cl_err ← cl_call cl (.EnqueueReadBuffer .flux_j false 0
    (size_t_prod sizeof_double [p.nang, p.ng, ri.nx, ri.nz]) .flux_j)
  check_ocl cl_err "Copying flux j buffer back to host"
  let cl_err ← cl_call cl (.EnqueueReadBuffer .flux_k true 0
    (size_t_prod sizeof_double [p.nang, p.ng, ri.nx, ri.ny]) .flux_k)
  check_ocl cl_err "Copying flux k buffer back to host"
  -- Send to neighbour with MPI_Send
  -- X
  if istep = -1 ∧ ri.xdown ≠ ri.rank then do
    let mpi_err ← mpi_call mpi (.Send .flux_i (c_int (p.nang * p.ng * ri.ny * ri.nz)) ri.xdown)
    check_mpi mpi_err "Sending to downward x neighbour"
  else if istep = 1 ∧ ri.xup ≠ ri.rank then do
    let mpi_err ← mpi_call mpi (.Send .flux_i (c_int (p.nang * p.ng * ri.ny * ri.nz)) ri.xup)
    check_mpi mpi_err "Sending to upward x neighbour"
  -- Y
  if jstep = -1 ∧ ri.ydown ≠ ri.rank then do
    let mpi_err ← mpi_call mpi (.Send .flux_j (c_int (p.nang * p.ng * ri.nx * ri.nz)) ri.ydown)
    check_mpi mpi_err "Sending to downward y neighbour"
  else if jstep = 1 ∧ ri.yup ≠ ri.rank then do
    let mpi_err ← mpi_call mpi (.Send .flux_j (c_int (p.nang * p.ng * ri.nx * ri.nz)) ri.yup)
    check_mpi mpi_err "Sending to upward y neighbour"
  -- Z
  if kstep = -1 ∧ ri.zdown ≠ ri.rank then do
    let mpi_err ← mpi_call mpi (.Send .flux_k (c_int (p.nang * p.ng * ri.nx * ri.ny)) ri.zdown)
    check_mpi mpi_err "Sending to downward z neighbour"
  else if kstep = 1 ∧ ri.zup ≠ ri.rank then do
    let mpi_err ← mpi_call mpi (.Send .flux_k (c_int (p.nang * p.ng * ri.nx * ri.ny)) ri.zup)
    check_mpi mpi_err "Sending to upward z neighbour"

/-! ## allocate.c -/

/-- The pointers of `struct memory`. -/
structure memory where
  angular_flux_in : Ptr
  angular_flux_out : Ptr
  flux_i : Ptr
  flux_j : Ptr
  flux_k : Ptr
  scalar_flux : Ptr
  old_inner_scalar_flux : Ptr
  old_outer_scalar_flux : Ptr
  scalar_flux_moments : Ptr
  mu : Ptr
  eta : Ptr
  xi : Ptr
  mat_cross_section : Ptr
deriving DecidableEq, Repr

/-- The function `allocate_memory` of `allocate.c`.  Every size is the
`size_t` expression of the source, evaluated from the left; the result of
`malloc` is stored unchecked. -/
def allocate_memory (libc : Libc) (p : problem) (ri : rankinfo) (m : memory) : Run memory := do
  -- Allocate two copies of the angular flux
  let ptr ← malloc libc (size_t_prod sizeof_double [ri.nx, ri.ny, ri.nz, p.nang, 8, p.ng])
  let m : memory := { m with angular_flux_in := ptr }
  let ptr ← malloc libc (size_t_prod sizeof_double [ri.nx, ri.ny, ri.nz, p.nang, 8, p.ng])
  let m : memory := { m with angular_flux_out := ptr }
  -- Allocate edge arrays
  let ptr ← malloc libc (size_t_prod sizeof_double [p.nang, p.ng, ri.ny, ri.nz])
  let m : memory := { m with flux_i := ptr }
  let ptr ← malloc libc (size_t_prod sizeof_double [p.nang, p.ng, ri.nx, ri.nz])
  let m : memory := { m with flux_j := ptr }
  let ptr ← malloc libc (size_t_prod sizeof_double [p.nang, p.ng, ri.nx, ri.ny])
  let m : memory := { m with flux_k := ptr }
  -- Scalar flux
  let ptr ← malloc libc (size_t_prod sizeof_double [ri.nx, ri.ny, ri.nz, p.ng])
  let m : memory := { m with scalar_flux := ptr }
  let ptr ← malloc libc (size_t_prod sizeof_double [ri.nx, ri.ny, ri.nz, p.ng])
  let m : memory := { m with old_inner_scalar_flux := ptr }
  let ptr ← malloc libc (size_t_prod sizeof_double [ri.nx, ri.ny, ri.nz, p.ng])
  let m : memory := { m with old_outer_scalar_flux := ptr }
  -- Scalar flux moments
  let ptr ←
    if p.cmom - 1 = 0 then
      pure Ptr.NULL
    else
      malloc libc (size_t_prod sizeof_double [p.cmom - 1, p.ng, ri.nx, ri.ny, ri.nz])
  let m : memory := { m with scalar_flux_moments := ptr }
  -- Cosine coefficients
  let ptr ← malloc libc (size_t_prod sizeof_double [p.nang])
  let m : memory := { m with mu := ptr }
  let ptr ← malloc libc (size_t_prod sizeof_double [p.nang])
  let m : memory := { m with eta := ptr }
  let ptr ← malloc libc (size_t_prod sizeof_double [p.nang])
  let m : memory := { m with xi := ptr }
  -- Material cross section
  let ptr ← malloc libc (size_t_prod sizeof_double [p.ng])
  let m : memory := { m with mat_cross_section := ptr }
  pure m

/-! ## ocl_sweep.c -/

/-- The field of `struct plane` read by `sweep_plane`. -/
structure plane where
  num_cells : Int
deriving DecidableEq, Repr

/-- The function `sweep_plane` of `ocl_sweep.c`.  Reading `planes[plane]`
outside the array is undefined in C; the embedding answers `none` there. -/
def sweep_plane (cl : CL) (_octant : Int) (plane : Nat) (planes : Array Snap.plane)
    (p : problem) : Option (Run Unit) :=
  match planes[plane]? with
  | none => none
  | some pl => some (do
      let global : List Int := [p.nang * p.ng, pl.num_cells]
      let err ← cl_call cl (.EnqueueNDRangeKernel .sweep_plane 2 none global none)
      check_ocl err "Enqueue plane sweep kernel")

/-! ## Vocabulary of the statements -/

/-- In the trace of `r`, an MPI call that got a code other than `MPI_SUCCESS`
is followed by the diagnostic for that code and `exit` with that code, by
nothing else, and the process ends with the exit status of that code. -/
def StopsAtMpiFailure {α : Type} (r : Result α) : Prop :=
  ∀ (pre post : List Event) (c : MpiCall) (code : Int),
    r.trace = pre ++ Event.mpi c code :: post → code ≠ MPI_SUCCESS →
      r.outcome = .exited (exit_status code) ∧
      ∃ msg, post = [.fprintf_stderr (mpi_diagnostic code msg), .exit code]

/-- The same property, by recursion along the trace. -/
def CutAt {α : Type} (o : Outcome α) : List Event → Prop
  | [] => True
  | .mpi _ code :: rest =>
      if code = MPI_SUCCESS then CutAt o rest
      else o = .exited (exit_status code) ∧
        ∃ msg, rest = [.fprintf_stderr (mpi_diagnostic code msg), .exit code]
  | .cl _ _ :: rest => CutAt o rest
  | .zero_buffer _ _ :: rest => CutAt o rest
  | .malloc _ _ :: rest => CutAt o rest
  | .fprintf_stderr _ :: rest => CutAt o rest
  | .exit _ :: rest => CutAt o rest

/-- A result whose trace is cut at the first failing MPI call. -/
def Cut {α : Type} (r : Result α) : Prop := CutAt r.outcome r.trace

/-- The events of a trace that concern the edge array `b`: receives and sends
of the host array, transfers between host and device array, and zeroing of the
device array. -/
def axis_events (b : Edge) (tr : List Event) : List Event :=
  tr.filter fun e =>
    match e with
    | .mpi (.Recv buf _ _) _ => decide (buf = b)
    | .mpi (.Send buf _ _) _ => decide (buf = b)
    | .cl (.EnqueueWriteBuffer buf _ _ _ _) _ => decide (buf = b)
    | .cl (.EnqueueReadBuffer buf _ _ _ _) _ => decide (buf = b)
    | .zero_buffer buf _ => decide (buf = b)
    | _ => false

/-- The block of `recv_boundaries` for one axis, the parts that change from
axis to axis being parameters.  `recv_boundaries_blocks` shows that
`recv_boundaries` is the sequence of three such blocks. -/
def recv_axis (mpi : MPI) (cl : CL) (step ub extent lb : Int) (b : Edge)
    (count : Int) (bytes : Nat) (up down : Int) (up_msg down_msg copy_msg : String) :
    Run Unit :=
  if (step = -1 ∧ ub = extent) ∨ (step = 1 ∧ lb = 0) then
    zero_buffer b count
  else do
    if step = -1 then do
      let mpi_err ← mpi_call mpi (.Recv b (c_int count) up)
      check_mpi mpi_err up_msg
    else do
      let mpi_err ← mpi_call mpi (.Recv b (c_int count) down)
      check_mpi mpi_err down_msg
    let cl_err ← cl_call cl (.EnqueueWriteBuffer b true 0 bytes b)
    check_ocl cl_err copy_msg

/-- The block of `send_boundaries` for one axis; `send_boundaries_blocks`
shows that `send_boundaries` is the three reads followed by three such
blocks. -/
def send_axis (mpi : MPI) (step rank : Int) (b : Edge) (count down up : Int)
    (down_msg up_msg : String) : Run Unit :=
  if step = -1 ∧ down ≠ rank then do
    let mpi_err ← mpi_call mpi (.Send b (c_int count) down)
    check_mpi mpi_err down_msg
  else if step = 1 ∧ up ≠ rank then do
    let mpi_err ← mpi_call mpi (.Send b (c_int count) up)
    check_mpi mpi_err up_msg
  else
    pure ()

/-- The rank numbering of an MPI Cartesian topology with dimensions
`(npex, npey, npez)`: row-major, the last coordinate varying fastest. -/
def row_major (p : problem) (coords : Int × Int × Int) : Int :=
  (coords.1 * p.npey + coords.2.1) * p.npez + coords.2.2

/-- The MPI library as seen from the rank at `coords`, every call succeeding:
`lookup` is the map from coordinates to rank of the topology, the rank's own
ID is `lookup coords`, and `MPI_Cart_coords`, which the program calls with its
own rank only, answers `coords`. -/
def mpi_at (lookup : Int × Int × Int → Int) (coords : Int × Int × Int) : MPI :=
  { ret := fun _ _ => MPI_SUCCESS
    comm_rank := lookup coords
    cart_coords := fun _ => coords
    cart_rank := lookup }

/-- The OpenCL runtime with every call succeeding. -/
def cl_ok : CL :=
  { ret := fun _ _ => CL_SUCCESS }

/-- The problem of scenario S3: an 8x8x8 grid on 2x2x2 ranks, `nang = 8`,
`ng = 2`. -/
def problem_s3 : problem :=
  { nx := 8, ny := 8, nz := 8, npex := 2, npey := 2, npez := 2, nang := 8, ng := 2, cmom := 1 }

/-- A `struct rankinfo` before `setup_comms` has written to it. -/
def rankinfo_blank : rankinfo :=
  { rank := 0, ranks := (0, 0, 0), nx := 0, ny := 0, nz := 0,
    ilb := 0, iub := 0, jlb := 0, jub := 0, klb := 0, kub := 0,
    xup := 0, xdown := 0, yup := 0, ydown := 0, zup := 0, zdown := 0 }

/-- The geometry of the rank at coordinates (1,0,0) of `problem_s3`, as
`setup_comms` computes it with row-major rank numbering. -/
def rankinfo_s3_100 : rankinfo :=
  { rank := 4, ranks := (1, 0, 0), nx := 4, ny := 4, nz := 4,
    ilb := 4, iub := 8, jlb := 0, jub := 4, klb := 0, kub := 4,
    xup := 4, xdown := 0, yup := 6, ydown := 4, zup := 5, zdown := 4 }

/-- The geometry of the rank at coordinates (0,0,0) of `problem_s3`, as
`setup_comms` computes it with row-major rank numbering. -/
def rankinfo_s3_000 : rankinfo :=
  { rank := 0, ranks := (0, 0, 0), nx := 4, ny := 4, nz := 4,
    ilb := 0, iub := 4, jlb := 0, jub := 4, klb := 0, kub := 4,
    xup := 4, xdown := 0, yup := 2, ydown := 0, zup := 1, zdown := 0 }

/-- An MPI library whose calls succeed, except an `MPI_Cart_rank` made after
six events, which fails with code 13: in `setup_comms` run from the start this
is the fourth lookup, the one of the `y-1` neighbour. -/
def mpi_failing_fourth_lookup : MPI :=
  { ret := fun past c =>
      match c with
      | .Cart_rank _ => if past.length = 6 then 13 else MPI_SUCCESS
      | _ => MPI_SUCCESS
    comm_rank := 0
    cart_coords := fun _ => (0, 0, 0)
    cart_rank := fun _ => 0 }

/-- A problem on a single rank. -/
def problem_1x1x1 : problem :=
  { nx := 4, ny := 4, nz := 4, npex := 1, npey := 1, npez := 1, nang := 4, ng := 1, cmom := 1 }

/-- The rank coordinates of the process grid of `p`. -/
def in_grid (p : problem) (c : Int × Int × Int) : Prop :=
  (0 ≤ c.1 ∧ c.1 < p.npex) ∧ (0 ≤ c.2.1 ∧ c.2.1 < p.npey) ∧ (0 ≤ c.2.2 ∧ c.2.2 < p.npez)

/-- The cells of the global domain `[0,nx) x [0,ny) x [0,nz)`. -/
def in_domain (p : problem) (i j k : Int) : Prop :=
  (0 ≤ i ∧ i < p.nx) ∧ (0 ≤ j ∧ j < p.ny) ∧ (0 ≤ k ∧ k < p.nz)

/-- The cells of the box `[ilb,iub) x [jlb,jub) x [klb,kub)` of a rank. -/
def in_box (ri : rankinfo) (i j k : Int) : Prop :=
  (ri.ilb ≤ i ∧ i < ri.iub) ∧ (ri.jlb ≤ j ∧ j < ri.jub) ∧ (ri.klb ≤ k ∧ k < ri.kub)

/-- The `struct rankinfo` that `setup_comms` leaves on the rank at `coords`
when the MPI calls succeed, run from the start;
`none` if the run ends in `exit`. -/
def setup_geometry (lookup : Int × Int × Int → Int) (p : problem)
    (coords : Int × Int × Int) : Option rankinfo :=
  match (setup_comms (mpi_at lookup coords) p rankinfo_blank []).outcome with
  | .returned ri => some ri
  | .exited _ => none

/-- The number of cells `nx_r * ny_r * nz_r` of the rank at `coords`. -/
def local_cells (lookup : Int × Int × Int → Int) (p : problem)
    (coords : Int × Int × Int) : Int :=
  match setup_geometry lookup p coords with
  | some ri => ri.nx * ri.ny * ri.nz
  | none => 0

/-- The element count of the edge array of each axis: `nang * ng` times the
product of the two local extents of the other axes. -/
def edge_count (p : problem) (ri : rankinfo) : Edge → Int
  | .flux_i => p.nang * p.ng * ri.ny * ri.nz
  | .flux_j => p.nang * p.ng * ri.nx * ri.nz
  | .flux_k => p.nang * p.ng * ri.nx * ri.ny

/-- An `MPI_Recv` or `MPI_Send` event carries the element count of its edge
array as an `int`; other events are not constrained. -/
def count_ok (p : problem) (ri : rankinfo) : Event → Prop
  | .mpi (.Recv b n _) _ => n = c_int (edge_count p ri b)
  | .mpi (.Send b n _) _ => n = c_int (edge_count p ri b)
  | _ => True

/-- Every event of the result satisfies `P`. -/
def AllEv {α : Type} (P : Event → Prop) (r : Result α) : Prop :=
  ∀ e ∈ r.trace, P e

/-- A problem with `nang = ng = 65536` on two ranks along x, one cell each. -/
def problem_wide : problem :=
  { nx := 2, ny := 1, nz := 1, npex := 2, npey := 1, npez := 1,
    nang := 65536, ng := 65536, cmom := 1 }

/-- The geometry of the rank at coordinates (1,0,0) of `problem_wide`, as
`setup_comms` computes it with row-major rank numbering. -/
def rankinfo_wide_100 : rankinfo :=
  { rank := 1, ranks := (1, 0, 0), nx := 1, ny := 1, nz := 1,
    ilb := 1, iub := 2, jlb := 0, jub := 1, klb := 0, kub := 1,
    xup := 1, xdown := 0, yup := 1, ydown := 1, zup := 1, zdown := 1 }

/-- The problem of scenario S6: `nx = 5` on `npex = 2` ranks. -/
def problem_s6 : problem :=
  { nx := 5, ny := 4, nz := 4, npex := 2, npey := 1, npez := 1, nang := 4, ng := 1, cmom := 1 }

/-- A run ends in `exit` only after an MPI call of its trace got a non-success
code: `exit` is called with that code and the exit status is the one of that
code. -/
def ExitsOnMpi {α : Type} (r : Result α) : Prop :=
  ∀ s, r.outcome = .exited s →
    ∃ c code, code ≠ MPI_SUCCESS ∧ Event.mpi c code ∈ r.trace ∧ Event.exit code ∈ r.trace ∧
      s = exit_status code

/-- A `struct memory` before `allocate_memory` has written to it. -/
def memory_blank : memory :=
  { angular_flux_in := .NULL, angular_flux_out := .NULL, flux_i := .NULL, flux_j := .NULL,
    flux_k := .NULL, scalar_flux := .NULL, old_inner_scalar_flux := .NULL,
    old_outer_scalar_flux := .NULL, scalar_flux_moments := .NULL, mu := .NULL, eta := .NULL,
    xi := .NULL, mat_cross_section := .NULL }

/-- A C runtime whose `malloc` always succeeds, with a fresh address at each
call. -/
def libc_fresh : Libc :=
  { malloc := fun past _ => .addr (4096 * (past.length + 1)) }

/-- A C runtime whose `malloc` always fails. -/
def libc_exhausted : Libc :=
  { malloc := fun _ _ => .NULL }

/-- A problem on one rank with a subdomain of `2^20` cells along each axis,
`nang = 1`, `ng = 2`. -/
def problem_huge : problem :=
  { nx := 1048576, ny := 1048576, nz := 1048576, npex := 1, npey := 1, npez := 1,
    nang := 1, ng := 2, cmom := 1 }

/-- The geometry of the single rank of `problem_huge`. -/
def rankinfo_huge : rankinfo :=
  { rank := 0, ranks := (0, 0, 0), nx := 1048576, ny := 1048576, nz := 1048576,
    ilb := 0, iub := 1048576, jlb := 0, jub := 1048576, klb := 0, kub := 1048576,
    xup := 0, xdown := 0, yup := 0, ydown := 0, zup := 0, zdown := 0 }

/-- An MPI library whose `MPI_Cart_create` fails with code 13. -/
def mpi_failing_create : MPI :=
  { ret := fun _ c =>
      match c with
      | .Cart_create _ _ _ => 13
      | _ => MPI_SUCCESS
    comm_rank := 0
    cart_coords := fun _ => (0, 0, 0)
    cart_rank := fun _ => 0 }

/-! ## Theorems -/

@[simp] theorem bind_def {α β : Type} (m : Run α) (k : α → Run β) : (m >>= k) = Run.bind m k := rfl
@[simp] theorem pure_def {α : Type} (a : α) : (pure a : Run α) = Run.pure a := rfl

theorem CutAt_stops {α : Type} (o : Outcome α) (tr : List Event) (h : CutAt o tr) :
    ∀ (pre post : List Event) (c : MpiCall) (code : Int),
      tr = pre ++ Event.mpi c code :: post → code ≠ MPI_SUCCESS →
        o = .exited (exit_status code) ∧
        ∃ msg, post = [.fprintf_stderr (mpi_diagnostic code msg), .exit code] := by
  induction tr with
  | nil => intro pre post c code h1; simp at h1
  | cons e rest ih =>
    intro pre post c code h1 hne
    cases pre with
    | nil =>
      simp at h1
      obtain ⟨rfl, rfl⟩ := h1
      simpa [CutAt, hne] using h
    | cons e2 pre2 =>
      simp at h1
      obtain ⟨rfl, h2⟩ := h1
      cases e with
      | mpi c2 code2 =>
        by_cases hc : code2 = MPI_SUCCESS
        · simp [CutAt, hc] at h
          exact ih h pre2 post c code h2 hne
        · simp [CutAt, hc] at h
          obtain ⟨_, msg, hrest⟩ := h
          subst hrest
          exfalso
          have : Event.mpi c code ∈ pre2 ++ Event.mpi c code :: post := by simp
          rw [← h2] at this
          simp at this
      | cl _ _ => exact ih (by simpa [CutAt] using h) pre2 post c code h2 hne
      | zero_buffer _ _ => exact ih (by simpa [CutAt] using h) pre2 post c code h2 hne
      | malloc _ _ => exact ih (by simpa [CutAt] using h) pre2 post c code h2 hne
      | fprintf_stderr _ => exact ih (by simpa [CutAt] using h) pre2 post c code h2 hne
      | exit _ => exact ih (by simpa [CutAt] using h) pre2 post c code h2 hne

theorem Cut_stops {α : Type} (r : Result α) (h : Cut r) : StopsAtMpiFailure r :=
  CutAt_stops r.outcome r.trace h

theorem Cut_mpi_check {α : Type} (mpi : MPI) (c : MpiCall) (msg : String) (k : Unit → Run α)
    (past : List Event) (h : ∀ past', Cut (k () past')) :
    Cut (Run.bind (mpi_call mpi c) (fun e => Run.bind (check_mpi e msg) k) past) := by
  by_cases hc : mpi.ret past c = MPI_SUCCESS
  · simpa [Cut, CutAt, Run.bind, Run.pure, mpi_call, check_mpi, hc] using h _
  · simp [Cut, CutAt, Run.bind, mpi_call, check_mpi, hc, fprintf_stderr, emit, exit]

theorem Cut_mpi_check_last (mpi : MPI) (c : MpiCall) (msg : String) (past : List Event) :
    Cut (Run.bind (mpi_call mpi c) (fun e => check_mpi e msg) past) := by
  by_cases hc : mpi.ret past c = MPI_SUCCESS
  · simp [Cut, CutAt, Run.bind, Run.pure, mpi_call, check_mpi, hc]
  · simp [Cut, CutAt, Run.bind, mpi_call, check_mpi, hc, fprintf_stderr, emit, exit]

theorem Cut_cl_check {α : Type} (cl : CL) (c : ClCall) (msg : String) (k : Unit → Run α)
    (past : List Event) (h : ∀ past', Cut (k () past')) :
    Cut (Run.bind (cl_call cl c) (fun e => Run.bind (check_ocl e msg) k) past) := by
  by_cases hc : cl.ret past c = CL_SUCCESS
  · simpa [Cut, CutAt, Run.bind, Run.pure, cl_call, check_ocl, hc] using h _
  · simp [Cut, CutAt, Run.bind, cl_call, check_ocl, hc, fprintf_stderr, emit, exit]

theorem Cut_cl_check_last (cl : CL) (c : ClCall) (msg : String) (past : List Event) :
    Cut (Run.bind (cl_call cl c) (fun e => check_ocl e msg) past) := by
  by_cases hc : cl.ret past c = CL_SUCCESS
  · simp [Cut, CutAt, Run.bind, Run.pure, cl_call, check_ocl, hc]
  · simp [Cut, CutAt, Run.bind, cl_call, check_ocl, hc, fprintf_stderr, emit, exit]

theorem Cut_zero {α : Type} (b : Edge) (n : Int) (k : Unit → Run α) (past : List Event)
    (h : ∀ past', Cut (k () past')) :
    Cut (Run.bind (zero_buffer b n) k past) := by
  simpa [Cut, CutAt, Run.bind, zero_buffer, emit] using h _

theorem Cut_zero_last (b : Edge) (n : Int) (past : List Event) : Cut (zero_buffer b n past) := by
  simp [Cut, CutAt, zero_buffer, emit]

theorem Cut_pure {α : Type} (a : α) (past : List Event) : Cut (Run.pure a past) := by
  simp [Cut, CutAt, Run.pure]

theorem calculate_neighbours_cut (mpi : MPI) (p : problem) (ri : rankinfo) (past : List Event) :
    Cut (calculate_neighbours mpi p ri past) := by
  unfold calculate_neighbours
  simp only [bind_def, pure_def]
  repeat (first | exact Cut_pure _ _ | refine Cut_mpi_check _ _ _ _ _ (fun _ => ?_))

theorem setup_comms_cut (mpi : MPI) (p : problem) (ri : rankinfo) (past : List Event) :
    Cut (setup_comms mpi p ri past) := by
  unfold setup_comms
  simp only [bind_def, pure_def]
  repeat (first | exact calculate_neighbours_cut _ _ _ _
                | refine Cut_mpi_check _ _ _ _ _ (fun _ => ?_))

theorem CutAt_append {α β : Type} (a : α) (o : Outcome β) (t1 t2 : List Event)
    (h1 : CutAt (Outcome.returned a) t1) (h2 : CutAt o t2) : CutAt o (t1 ++ t2) := by
  induction t1 with
  | nil => simpa using h2
  | cons e rest ih =>
    cases e with
    | mpi c code =>
      by_cases hc : code = MPI_SUCCESS
      · simp only [CutAt, hc, if_true, List.cons_append] at h1 ⊢
        exact ih h1
      · simp [CutAt, hc] at h1
    | cl _ _ => simpa [CutAt] using ih (by simpa [CutAt] using h1)
    | zero_buffer _ _ => simpa [CutAt] using ih (by simpa [CutAt] using h1)
    | malloc _ _ => simpa [CutAt] using ih (by simpa [CutAt] using h1)
    | fprintf_stderr _ => simpa [CutAt] using ih (by simpa [CutAt] using h1)
    | exit _ => simpa [CutAt] using ih (by simpa [CutAt] using h1)

theorem CutAt_exited {α β : Type} (s : Int) (tr : List Event)
    (h : CutAt (Outcome.exited s : Outcome α) tr) : CutAt (Outcome.exited s : Outcome β) tr := by
  induction tr with
  | nil => trivial
  | cons e rest ih =>
    cases e with
    | mpi c code =>
      by_cases hc : code = MPI_SUCCESS
      · simp only [CutAt, hc, if_true] at h ⊢
        exact ih h
      · simp only [CutAt, hc, if_false, Outcome.exited.injEq] at h ⊢
        exact h
    | cl _ _ => simpa [CutAt] using ih (by simpa [CutAt] using h)
    | zero_buffer _ _ => simpa [CutAt] using ih (by simpa [CutAt] using h)
    | malloc _ _ => simpa [CutAt] using ih (by simpa [CutAt] using h)
    | fprintf_stderr _ => simpa [CutAt] using ih (by simpa [CutAt] using h)
    | exit _ => simpa [CutAt] using ih (by simpa [CutAt] using h)

theorem Cut_bind {α β : Type} (m : Run α) (k : α → Run β) (past : List Event)
    (hm : Cut (m past)) (hk : ∀ a past', Cut (k a past')) : Cut (Run.bind m k past) := by
  unfold Cut at hm ⊢
  unfold Run.bind
  cases hmo : (m past).outcome with
  | exited s =>
    rw [hmo] at hm
    exact CutAt_exited s _ hm
  | returned a =>
    rw [hmo] at hm
    simp only
    exact CutAt_append a _ _ _ hm (hk a _)

theorem recv_axis_cut (mpi : MPI) (cl : CL) (step ub extent lb : Int) (b : Edge)
    (count : Int) (bytes : Nat) (up down : Int) (up_msg down_msg copy_msg : String)
    (past : List Event) :
    Cut (recv_axis mpi cl step ub extent lb b count bytes up down up_msg down_msg copy_msg
      past) := by
  unfold recv_axis
  simp only [bind_def, pure_def]
  split_ifs
  · exact Cut_zero_last _ _ _
  · exact Cut_mpi_check _ _ _ _ _ (fun _ => Cut_cl_check_last _ _ _ _)
  · exact Cut_mpi_check _ _ _ _ _ (fun _ => Cut_cl_check_last _ _ _ _)

theorem send_axis_cut (mpi : MPI) (step rank : Int) (b : Edge) (count down up : Int)
    (down_msg up_msg : String) (past : List Event) :
    Cut (send_axis mpi step rank b count down up down_msg up_msg past) := by
  unfold send_axis
  simp only [bind_def, pure_def]
  split_ifs
  · exact Cut_mpi_check_last _ _ _ _
  · exact Cut_mpi_check_last _ _ _ _
  · exact Cut_pure _ _

theorem Run.bind_assoc {α β γ : Type} (m : Run α) (f : α → Run β) (g : β → Run γ) :
    Run.bind (Run.bind m f) g = Run.bind m (fun a => Run.bind (f a) g) := by
  funext past
  simp only [Run.bind]
  cases hm : (m past).outcome with
  | exited s => simp
  | returned a =>
    simp only
    cases hf : (f a (past ++ (m past).trace)).outcome with
    | exited s => simp
    | returned b => simp [List.append_assoc]

theorem Run.pure_bind {α β : Type} (a : α) (k : α → Run β) :
    Run.bind (Run.pure a) k = k a := by
  funext past
  simp [Run.bind, Run.pure]

theorem Run.bind_ite {α β : Type} (c : Prop) [Decidable c] (a b : Run α) (k : α → Run β) :
    Run.bind (if c then a else b) k = if c then Run.bind a k else Run.bind b k := by
  split_ifs <;> rfl

theorem recv_boundaries_blocks (mpi : MPI) (cl : CL) (octant istep jstep kstep : Int)
    (p : problem) (ri : rankinfo) :
    recv_boundaries mpi cl octant istep jstep kstep p ri =
      Run.bind
        (recv_axis mpi cl istep ri.iub p.nx ri.ilb .flux_i (p.nang * p.ng * ri.ny * ri.nz)
          (size_t_prod sizeof_double [p.nang, p.ng, ri.ny, ri.nz]) ri.xup ri.xdown
          "Receiving from upward x neighbour" "Receiving from downward x neighbour"
          "Copying flux i buffer to device")
        (fun _ => Run.bind
          (recv_axis mpi cl jstep ri.jub p.ny ri.jlb .flux_j (p.nang * p.ng * ri.nx * ri.nz)
            (size_t_prod sizeof_double [p.nang, p.ng, ri.nx, ri.nz]) ri.yup ri.ydown
            "Receiving from upward y neighbour" "Receiving from downward y neighbour"
            "Copying flux j buffer to device")
          (fun _ =>
            recv_axis mpi cl kstep ri.kub p.nz ri.klb .flux_k (p.nang * p.ng * ri.nx * ri.ny)
              (size_t_prod sizeof_double [p.nang, p.ng, ri.nx, ri.ny]) ri.zup ri.zdown
              "Receiving from upward z neighbour" "Receiving from downward z neighbour"
              "Copying flux k buffer to device")) := by
  unfold recv_boundaries recv_axis
  simp only [bind_def, pure_def, Run.bind_ite, Run.bind_assoc, Run.pure_bind]

theorem send_boundaries_blocks (mpi : MPI) (cl : CL) (octant istep jstep kstep : Int)
    (p : problem) (ri : rankinfo) :
    send_boundaries mpi cl octant istep jstep kstep p ri =
      Run.bind (cl_call cl (.EnqueueReadBuffer .flux_i false 0
          (size_t_prod sizeof_double [p.nang, p.ng, ri.ny, ri.nz]) .flux_i)) (fun cl_err =>
      Run.bind (check_ocl cl_err "Copying flux i buffer back to host") (fun _ =>
      Run.bind (cl_call cl (.EnqueueReadBuffer .flux_j false 0
          (size_t_prod sizeof_double [p.nang, p.ng, ri.nx, ri.nz]) .flux_j)) (fun cl_err =>
      Run.bind (check_ocl cl_err "Copying flux j buffer back to host") (fun _ =>
      Run.bind (cl_call cl (.EnqueueReadBuffer .flux_k true 0
          (size_t_prod sizeof_double [p.nang, p.ng, ri.nx, ri.ny]) .flux_k)) (fun cl_err =>
      Run.bind (check_ocl cl_err "Copying flux k buffer back to host") (fun _ =>
      Run.bind
        (send_axis mpi istep ri.rank .flux_i (p.nang * p.ng * ri.ny * ri.nz) ri.xdown ri.xup
          "Sending to downward x neighbour" "Sending to upward x neighbour") (fun _ =>
      Run.bind
        (send_axis mpi jstep ri.rank .flux_j (p.nang * p.ng * ri.nx * ri.nz) ri.ydown ri.yup
          "Sending to downward y neighbour" "Sending to upward y neighbour") (fun _ =>
        send_axis mpi kstep ri.rank .flux_k (p.nang * p.ng * ri.nx * ri.ny) ri.zdown ri.zup
          "Sending to downward z neighbour" "Sending to upward z neighbour")))))))) := by
  unfold send_boundaries send_axis
  simp only [bind_def, pure_def, Run.bind_ite, Run.bind_assoc, Run.pure_bind]

theorem recv_boundaries_cut (mpi : MPI) (cl : CL) (o i j k : Int) (p : problem) (ri : rankinfo)
    (past : List Event) : Cut (recv_boundaries mpi cl o i j k p ri past) := by
  rw [recv_boundaries_blocks]
  exact Cut_bind _ _ _ (recv_axis_cut _ _ _ _ _ _ _ _ _ _ _ _ _ _ _) fun _ _ =>
    Cut_bind _ _ _ (recv_axis_cut _ _ _ _ _ _ _ _ _ _ _ _ _ _ _) fun _ _ =>
      recv_axis_cut _ _ _ _ _ _ _ _ _ _ _ _ _ _ _

theorem send_boundaries_cut (mpi : MPI) (cl : CL) (o i j k : Int) (p : problem) (ri : rankinfo)
    (past : List Event) : Cut (send_boundaries mpi cl o i j k p ri past) := by
  rw [send_boundaries_blocks]
  refine Cut_cl_check _ _ _ _ _ fun _ => Cut_cl_check _ _ _ _ _ fun _ =>
    Cut_cl_check _ _ _ _ _ fun _ => ?_
  exact Cut_bind _ _ _ (send_axis_cut _ _ _ _ _ _ _ _ _ _) fun _ _ =>
    Cut_bind _ _ _ (send_axis_cut _ _ _ _ _ _ _ _ _ _) fun _ _ =>
      send_axis_cut _ _ _ _ _ _ _ _ _ _

theorem mpi_diagnostic_has_code (err : Int) (msg : String) :
    (toString err).data <:+: (mpi_diagnostic err msg).data :=
  ⟨"MPI Error: ".data, ". ".data ++ msg.data ++ "\n".data, by
    simp [mpi_diagnostic, String.data_append]⟩

theorem mpi_diagnostic_has_msg (err : Int) (msg : String) :
    msg.data <:+: (mpi_diagnostic err msg).data :=
  ⟨"MPI Error: ".data ++ (toString err).data ++ ". ".data, "\n".data, by
    simp [mpi_diagnostic, String.data_append]⟩

theorem setup_comms_failing_fourth_lookup :
    setup_comms mpi_failing_fourth_lookup problem_1x1x1 rankinfo_blank [] =
      ⟨[.mpi (.Cart_create (1, 1, 1) (0, 0, 0) 0) MPI_SUCCESS,
        .mpi .Comm_rank MPI_SUCCESS,
        .mpi (.Cart_coords 0) MPI_SUCCESS,
        .mpi (.Cart_rank (0, 0, 0)) MPI_SUCCESS,
        .mpi (.Cart_rank (0, 0, 0)) MPI_SUCCESS,
        .mpi (.Cart_rank (0, 0, 0)) MPI_SUCCESS,
        .mpi (.Cart_rank (0, 0, 0)) 13,
        .fprintf_stderr "MPI Error: 13. Getting y-1 rank\n",
        .exit 13],
       .exited 13⟩ := by
  decide

theorem mpi_check_failure {α : Type} (mpi : MPI) (c : MpiCall) (msg : String)
    (k : Unit → Run α) (past : List Event) (h : mpi.ret past c ≠ MPI_SUCCESS) :
    Run.bind (mpi_call mpi c) (fun e => Run.bind (check_mpi e msg) k) past =
      ⟨[.mpi c (mpi.ret past c), .fprintf_stderr (mpi_diagnostic (mpi.ret past c) msg),
        .exit (mpi.ret past c)], .exited (exit_status (mpi.ret past c))⟩ := by
  simp [Run.bind, mpi_call, check_mpi, h, fprintf_stderr, emit, exit]

theorem setup_comms_first_failure (mpi : MPI) (p : problem) (ri : rankinfo) (past : List Event)
    (h : mpi.ret past (.Cart_create (p.npex, p.npey, p.npez) (0, 0, 0) 0) ≠ MPI_SUCCESS) :
    setup_comms mpi p ri past =
      ⟨[.mpi (.Cart_create (p.npex, p.npey, p.npez) (0, 0, 0) 0)
          (mpi.ret past (.Cart_create (p.npex, p.npey, p.npez) (0, 0, 0) 0)),
        .fprintf_stderr (mpi_diagnostic
          (mpi.ret past (.Cart_create (p.npex, p.npey, p.npez) (0, 0, 0) 0))
          "Creating MPI Cart"),
        .exit (mpi.ret past (.Cart_create (p.npex, p.npey, p.npez) (0, 0, 0) 0))],
       .exited (exit_status
          (mpi.ret past (.Cart_create (p.npex, p.npey, p.npez) (0, 0, 0) 0)))⟩ := by
  unfold setup_comms
  simp only [bind_def]
  exact mpi_check_failure mpi _ _ _ past h

theorem recv_boundaries_first_failure (mpi : MPI) (cl : CL) (octant jstep kstep : Int)
    (p : problem) (ri : rankinfo) (past : List Event) (hin : ri.iub ≠ p.nx)
    (h : mpi.ret past (.Recv .flux_i (c_int (p.nang * p.ng * ri.ny * ri.nz)) ri.xup) ≠
      MPI_SUCCESS) :
    recv_boundaries mpi cl octant (-1) jstep kstep p ri past =
      ⟨[.mpi (.Recv .flux_i (c_int (p.nang * p.ng * ri.ny * ri.nz)) ri.xup)
          (mpi.ret past (.Recv .flux_i (c_int (p.nang * p.ng * ri.ny * ri.nz)) ri.xup)),
        .fprintf_stderr (mpi_diagnostic
          (mpi.ret past (.Recv .flux_i (c_int (p.nang * p.ng * ri.ny * ri.nz)) ri.xup))
          "Receiving from upward x neighbour"),
        .exit (mpi.ret past (.Recv .flux_i (c_int (p.nang * p.ng * ri.ny * ri.nz)) ri.xup))],
       .exited (exit_status
          (mpi.ret past (.Recv .flux_i (c_int (p.nang * p.ng * ri.ny * ri.nz)) ri.xup)))⟩ := by
  rw [recv_boundaries_blocks]
  unfold recv_axis
  have hg : ¬(True ∧ ri.iub = p.nx ∨ (-1 : Int) = 1 ∧ ri.ilb = 0) := by
    simp [hin]
  simp only [bind_def, if_neg hg, if_true, Run.bind_assoc]
  exact mpi_check_failure mpi _ _ _ past h

/-- C8, the claim refuted: `check_mpi(256, msg)` with `256 ≠ MPI_SUCCESS` prints
the diagnostic and calls `exit(256)`, and the process ends with exit status 0,
not 256; `check_mpi(-1, msg)` ends it with status 255. -/
theorem check_mpi_exit_status_differs :
    (256 : Int) ≠ MPI_SUCCESS ∧
    check_mpi 256 "Getting MPI rank" [] =
      ⟨[.fprintf_stderr "MPI Error: 256. Getting MPI rank\n", .exit 256], .exited 0⟩ ∧
    check_mpi (-1) "Getting MPI rank" [] =
      ⟨[.fprintf_stderr "MPI Error: -1. Getting MPI rank\n", .exit (-1)], .exited 255⟩ := by
  decide

/-- C8 as amended: `check_mpi err msg` returns without any event exactly when
`err = MPI_SUCCESS`; for any other code it prints a diagnostic that contains
the code and the operation name `msg` and calls `exit(err)`, the process
ending with exit status `err mod 256`, which is `err` exactly when
`0 <= err < 256`; nothing runs after it.  In `setup_comms`,
`calculate_neighbours`, `recv_boundaries` and `send_boundaries`, whatever the
libraries answer at each call and whatever came before, an MPI call that gets
a non-success code is followed by that diagnostic and that exit only; so
`setup_comms` whose `MPI_Cart_create` fails, and `recv_boundaries` whose first
receive fails, consist of that call, the diagnostic and the exit. -/
theorem check_mpi_contract (err : Int) (msg : String) (past : List Event) :
    (check_mpi err msg past = ⟨[], .returned ()⟩ ↔ err = MPI_SUCCESS) ∧
    check_mpi err msg past =
      (if err = MPI_SUCCESS then ⟨[], .returned ()⟩
       else ⟨[.fprintf_stderr (mpi_diagnostic err msg), .exit err],
          .exited (exit_status err)⟩) ∧
    exit_status err = err % 256 ∧
    (exit_status err = err ↔ 0 ≤ err ∧ err < 256) ∧
    (toString err).data <:+: (mpi_diagnostic err msg).data ∧
    msg.data <:+: (mpi_diagnostic err msg).data ∧
    (∀ (β : Type) (k : Unit → Run β),
      (check_mpi err msg >>= k) past =
        if err = MPI_SUCCESS then k () past
        else ⟨[.fprintf_stderr (mpi_diagnostic err msg), .exit err],
          .exited (exit_status err)⟩) ∧
    (∀ mpi p ri past', StopsAtMpiFailure (setup_comms mpi p ri past')) ∧
    (∀ mpi p ri past', StopsAtMpiFailure (calculate_neighbours mpi p ri past')) ∧
    (∀ mpi cl octant istep jstep kstep p ri past',
      StopsAtMpiFailure (recv_boundaries mpi cl octant istep jstep kstep p ri past')) ∧
    (∀ mpi cl octant istep jstep kstep p ri past',
      StopsAtMpiFailure (send_boundaries mpi cl octant istep jstep kstep p ri past')) ∧
    (∀ (mpi : MPI) (p : problem) (ri : rankinfo) (past' : List Event),
      mpi.ret past' (.Cart_create (p.npex, p.npey, p.npez) (0, 0, 0) 0) = err →
      err ≠ MPI_SUCCESS →
      setup_comms mpi p ri past' =
        ⟨[.mpi (.Cart_create (p.npex, p.npey, p.npez) (0, 0, 0) 0) err,
          .fprintf_stderr (mpi_diagnostic err "Creating MPI Cart"), .exit err],
         .exited (exit_status err)⟩) ∧
    (∀ (mpi : MPI) (cl : CL) (octant jstep kstep : Int) (p : problem) (ri : rankinfo)
      (past' : List Event),
      ri.iub ≠ p.nx →
      mpi.ret past' (.Recv .flux_i (c_int (p.nang * p.ng * ri.ny * ri.nz)) ri.xup) = err →
      err ≠ MPI_SUCCESS →
      recv_boundaries mpi cl octant (-1) jstep kstep p ri past' =
        ⟨[.mpi (.Recv .flux_i (c_int (p.nang * p.ng * ri.ny * ri.nz)) ri.xup) err,
          .fprintf_stderr (mpi_diagnostic err "Receiving from upward x neighbour"),
          .exit err],
         .exited (exit_status err)⟩) := by
  have hrun : check_mpi err msg past =
      (if err = MPI_SUCCESS then ⟨[], .returned ()⟩
       else ⟨[.fprintf_stderr (mpi_diagnostic err msg), .exit err],
          .exited (exit_status err)⟩) := by
    by_cases h : err = MPI_SUCCESS <;>
      simp [check_mpi, h, fprintf_stderr, emit, exit, Run.bind, Run.pure]
  refine ⟨?_, hrun, rfl, ?_, mpi_diagnostic_has_code err msg, mpi_diagnostic_has_msg err msg,
    ?_,
    fun mpi p ri past' => Cut_stops _ (setup_comms_cut mpi p ri past'),
    fun mpi p ri past' => Cut_stops _ (calculate_neighbours_cut mpi p ri past'),
    fun mpi cl o i j k p ri past' => Cut_stops _ (recv_boundaries_cut mpi cl o i j k p ri past'),
    fun mpi cl o i j k p ri past' => Cut_stops _ (send_boundaries_cut mpi cl o i j k p ri past'),
    ?_, ?_⟩
  · rw [hrun]
    by_cases h : err = MPI_SUCCESS <;> simp [h]
  · unfold exit_status
    omega
  · intro β k
    simp only [bind_def, Run.bind, hrun]
    by_cases h : err = MPI_SUCCESS <;> simp [h]
  · intro mpi p ri past' he hne
    have h := setup_comms_first_failure mpi p ri past' (by rw [he]; exact hne)
    rw [he] at h
    exact h
  · intro mpi cl octant jstep kstep p ri past' hin he hne
    have h := recv_boundaries_first_failure mpi cl octant jstep kstep p ri past' hin
      (by rw [he]; exact hne)
    rw [he] at h
    exact h

theorem check_mpi_contract_witness :
    setup_comms mpi_failing_create problem_s3 rankinfo_blank [] =
      ⟨[.mpi (.Cart_create (2, 2, 2) (0, 0, 0) 0) 13,
        .fprintf_stderr "MPI Error: 13. Creating MPI Cart\n", .exit 13],
       .exited 13⟩ :=
  (check_mpi_contract 13 "Creating MPI Cart" []).2.2.2.2.2.2.2.2.2.2.2.1
    mpi_failing_create problem_s3 rankinfo_blank [] rfl (by decide)

theorem recv_axis_success (mpi : MPI) (cl : CL) (step ub extent lb : Int) (b : Edge)
    (count : Int) (bytes : Nat) (up down : Int) (up_msg down_msg copy_msg : String)
    (hmpi : ∀ past c, mpi.ret past c = MPI_SUCCESS) (hcl : ∀ past c, cl.ret past c = CL_SUCCESS)
    (past : List Event) :
    recv_axis mpi cl step ub extent lb b count bytes up down up_msg down_msg copy_msg past =
      ⟨if (step = -1 ∧ ub = extent) ∨ (step = 1 ∧ lb = 0) then [.zero_buffer b count]
        else [.mpi (.Recv b (c_int count) (if step = -1 then up else down)) MPI_SUCCESS,
              .cl (.EnqueueWriteBuffer b true 0 bytes b) CL_SUCCESS],
       .returned ()⟩ := by
  unfold recv_axis
  simp only [bind_def, pure_def]
  split_ifs <;>
    simp [Run.bind, Run.pure, mpi_call, cl_call, check_mpi, check_ocl, zero_buffer, emit,
      hmpi, hcl]

theorem send_axis_success (mpi : MPI) (step rank : Int) (b : Edge) (count down up : Int)
    (down_msg up_msg : String) (hmpi : ∀ past c, mpi.ret past c = MPI_SUCCESS)
    (past : List Event) :
    send_axis mpi step rank b count down up down_msg up_msg past =
      ⟨if step = -1 ∧ down ≠ rank then [.mpi (.Send b (c_int count) down) MPI_SUCCESS]
        else if step = 1 ∧ up ≠ rank then [.mpi (.Send b (c_int count) up) MPI_SUCCESS]
        else [],
       .returned ()⟩ := by
  unfold send_axis
  simp only [bind_def, pure_def]
  split_ifs <;> simp [Run.bind, Run.pure, mpi_call, check_mpi, hmpi]

theorem recv_boundaries_success (mpi : MPI) (cl : CL) (octant istep jstep kstep : Int)
    (p : problem) (ri : rankinfo)
    (hmpi : ∀ past c, mpi.ret past c = MPI_SUCCESS) (hcl : ∀ past c, cl.ret past c = CL_SUCCESS)
    (past : List Event) :
    recv_boundaries mpi cl octant istep jstep kstep p ri past =
      ⟨(if (istep = -1 ∧ ri.iub = p.nx) ∨ (istep = 1 ∧ ri.ilb = 0) then
          [.zero_buffer .flux_i (p.nang * p.ng * ri.ny * ri.nz)]
        else
          [.mpi (.Recv .flux_i (c_int (p.nang * p.ng * ri.ny * ri.nz))
              (if istep = -1 then ri.xup else ri.xdown)) MPI_SUCCESS,
           .cl (.EnqueueWriteBuffer .flux_i true 0
              (size_t_prod sizeof_double [p.nang, p.ng, ri.ny, ri.nz]) .flux_i) CL_SUCCESS]) ++
        ((if (jstep = -1 ∧ ri.jub = p.ny) ∨ (jstep = 1 ∧ ri.jlb = 0) then
          [.zero_buffer .flux_j (p.nang * p.ng * ri.nx * ri.nz)]
        else
          [.mpi (.Recv .flux_j (c_int (p.nang * p.ng * ri.nx * ri.nz))
              (if jstep = -1 then ri.yup else ri.ydown)) MPI_SUCCESS,
           .cl (.EnqueueWriteBuffer .flux_j true 0
              (size_t_prod sizeof_double [p.nang, p.ng, ri.nx, ri.nz]) .flux_j) CL_SUCCESS]) ++
        (if (kstep = -1 ∧ ri.kub = p.nz) ∨ (kstep = 1 ∧ ri.klb = 0) then
          [.zero_buffer .flux_k (p.nang * p.ng * ri.nx * ri.ny)]
        else
          [.mpi (.Recv .flux_k (c_int (p.nang * p.ng * ri.nx * ri.ny))
              (if kstep = -1 then ri.zup else ri.zdown)) MPI_SUCCESS,
           .cl (.EnqueueWriteBuffer .flux_k true 0
              (size_t_prod sizeof_double [p.nang, p.ng, ri.nx, ri.ny]) .flux_k) CL_SUCCESS])),
       .returned ()⟩ := by
  rw [recv_boundaries_blocks]
  simp only [Run.bind, recv_axis_success _ _ _ _ _ _ _ _ _ _ _ _ _ _ hmpi hcl]

theorem send_boundaries_success (mpi : MPI) (cl : CL) (octant istep jstep kstep : Int)
    (p : problem) (ri : rankinfo)
    (hmpi : ∀ past c, mpi.ret past c = MPI_SUCCESS) (hcl : ∀ past c, cl.ret past c = CL_SUCCESS)
    (past : List Event) :
    send_boundaries mpi cl octant istep jstep kstep p ri past =
      ⟨[.cl (.EnqueueReadBuffer .flux_i false 0
            (size_t_prod sizeof_double [p.nang, p.ng, ri.ny, ri.nz]) .flux_i) CL_SUCCESS,
        .cl (.EnqueueReadBuffer .flux_j false 0
            (size_t_prod sizeof_double [p.nang, p.ng, ri.nx, ri.nz]) .flux_j) CL_SUCCESS,
        .cl (.EnqueueReadBuffer .flux_k true 0
            (size_t_prod sizeof_double [p.nang, p.ng, ri.nx, ri.ny]) .flux_k) CL_SUCCESS] ++
        ((if istep = -1 ∧ ri.xdown ≠ ri.rank then
            [.mpi (.Send .flux_i (c_int (p.nang * p.ng * ri.ny * ri.nz)) ri.xdown) MPI_SUCCESS]
          else if istep = 1 ∧ ri.xup ≠ ri.rank then
            [.mpi (.Send .flux_i (c_int (p.nang * p.ng * ri.ny * ri.nz)) ri.xup) MPI_SUCCESS]
          else []) ++
        ((if jstep = -1 ∧ ri.ydown ≠ ri.rank then
            [.mpi (.Send .flux_j (c_int (p.nang * p.ng * ri.nx * ri.nz)) ri.ydown) MPI_SUCCESS]
          else if jstep = 1 ∧ ri.yup ≠ ri.rank then
            [.mpi (.Send .flux_j (c_int (p.nang * p.ng * ri.nx * ri.nz)) ri.yup) MPI_SUCCESS]
          else []) ++
        (if kstep = -1 ∧ ri.zdown ≠ ri.rank then
            [.mpi (.Send .flux_k (c_int (p.nang * p.ng * ri.nx * ri.ny)) ri.zdown) MPI_SUCCESS]
          else if kstep = 1 ∧ ri.zup ≠ ri.rank then
            [.mpi (.Send .flux_k (c_int (p.nang * p.ng * ri.nx * ri.ny)) ri.zup) MPI_SUCCESS]
          else []))),
       .returned ()⟩ := by
  rw [send_boundaries_blocks]
  simp [send_axis_success _ _ _ _ _ _ _ _ _ hmpi, Run.bind, Run.pure, cl_call, check_ocl, hcl]

theorem rankinfo_s3_100_is_setup :
    setup_comms (mpi_at (row_major problem_s3) (1, 0, 0)) problem_s3 rankinfo_blank [] =
      ⟨[.mpi (.Cart_create (2, 2, 2) (0, 0, 0) 0) MPI_SUCCESS,
        .mpi .Comm_rank MPI_SUCCESS,
        .mpi (.Cart_coords 4) MPI_SUCCESS,
        .mpi (.Cart_rank (1, 0, 0)) MPI_SUCCESS,
        .mpi (.Cart_rank (0, 0, 0)) MPI_SUCCESS,
        .mpi (.Cart_rank (1, 1, 0)) MPI_SUCCESS,
        .mpi (.Cart_rank (1, 0, 0)) MPI_SUCCESS,
        .mpi (.Cart_rank (1, 0, 1)) MPI_SUCCESS,
        .mpi (.Cart_rank (1, 0, 0)) MPI_SUCCESS],
       .returned rankinfo_s3_100⟩ := by
  decide

theorem rankinfo_s3_000_is_setup :
    (setup_comms (mpi_at (row_major problem_s3) (0, 0, 0)) problem_s3 rankinfo_blank
      []).outcome = .returned rankinfo_s3_000 := by
  decide

/-- C1: when the library calls succeed, whatever came before, `recv_boundaries`
returns and, for each axis, the events on that axis are: on the external
upstream face (`istep = 1` and `ilb = 0`, or `istep = -1` and `iub = nx`) one
zeroing of the device edge array and no receive; otherwise one receive into
the host edge array, from `xup` when `istep = -1` and from `xdown` otherwise,
followed by one blocking write of the host array to the device array.  The
trace consists of these three groups in the order i, j, k.  With all lower
bounds zero and all steps `+1` the trace is the three zeroings. -/
theorem recv_boundaries_contract (mpi : MPI) (cl : CL) (octant istep jstep kstep : Int)
    (p : problem) (ri : rankinfo) (past : List Event)
    (hmpi : ∀ past c, mpi.ret past c = MPI_SUCCESS)
    (hcl : ∀ past c, cl.ret past c = CL_SUCCESS) :
    (recv_boundaries mpi cl octant istep jstep kstep p ri past).outcome = .returned () ∧
    axis_events .flux_i (recv_boundaries mpi cl octant istep jstep kstep p ri past).trace =
      (if (istep = 1 ∧ ri.ilb = 0) ∨ (istep = -1 ∧ ri.iub = p.nx) then
        [.zero_buffer .flux_i (p.nang * p.ng * ri.ny * ri.nz)]
       else
        [.mpi (.Recv .flux_i (c_int (p.nang * p.ng * ri.ny * ri.nz))
            (if istep = -1 then ri.xup else ri.xdown)) MPI_SUCCESS,
         .cl (.EnqueueWriteBuffer .flux_i true 0
            (size_t_prod sizeof_double [p.nang, p.ng, ri.ny, ri.nz]) .flux_i) CL_SUCCESS]) ∧
    axis_events .flux_j (recv_boundaries mpi cl octant istep jstep kstep p ri past).trace =
      (if (jstep = 1 ∧ ri.jlb = 0) ∨ (jstep = -1 ∧ ri.jub = p.ny) then
        [.zero_buffer .flux_j (p.nang * p.ng * ri.nx * ri.nz)]
       else
        [.mpi (.Recv .flux_j (c_int (p.nang * p.ng * ri.nx * ri.nz))
            (if jstep = -1 then ri.yup else ri.ydown)) MPI_SUCCESS,
         .cl (.EnqueueWriteBuffer .flux_j true 0
            (size_t_prod sizeof_double [p.nang, p.ng, ri.nx, ri.nz]) .flux_j) CL_SUCCESS]) ∧
    axis_events .flux_k (recv_boundaries mpi cl octant istep jstep kstep p ri past).trace =
      (if (kstep = 1 ∧ ri.klb = 0) ∨ (kstep = -1 ∧ ri.kub = p.nz) then
        [.zero_buffer .flux_k (p.nang * p.ng * ri.nx * ri.ny)]
       else
        [.mpi (.Recv .flux_k (c_int (p.nang * p.ng * ri.nx * ri.ny))
            (if kstep = -1 then ri.zup else ri.zdown)) MPI_SUCCESS,
         .cl (.EnqueueWriteBuffer .flux_k true 0
            (size_t_prod sizeof_double [p.nang, p.ng, ri.nx, ri.ny]) .flux_k) CL_SUCCESS]) ∧
    (recv_boundaries mpi cl octant istep jstep kstep p ri past).trace =
      axis_events .flux_i (recv_boundaries mpi cl octant istep jstep kstep p ri past).trace ++
      axis_events .flux_j (recv_boundaries mpi cl octant istep jstep kstep p ri past).trace ++
      axis_events .flux_k (recv_boundaries mpi cl octant istep jstep kstep p ri past).trace ∧
    (istep = 1 → jstep = 1 → kstep = 1 → ri.ilb = 0 → ri.jlb = 0 → ri.klb = 0 →
      (recv_boundaries mpi cl octant istep jstep kstep p ri past).trace =
        [.zero_buffer .flux_i (p.nang * p.ng * ri.ny * ri.nz),
         .zero_buffer .flux_j (p.nang * p.ng * ri.nx * ri.nz),
         .zero_buffer .flux_k (p.nang * p.ng * ri.nx * ri.ny)]) := by
  rw [recv_boundaries_success mpi cl octant istep jstep kstep p ri hmpi hcl past]
  refine ⟨rfl, ?_, ?_, ?_, ?_, ?_⟩
  · by_cases hi : (istep = -1 ∧ ri.iub = p.nx) ∨ (istep = 1 ∧ ri.ilb = 0) <;>
    by_cases hj : (jstep = -1 ∧ ri.jub = p.ny) ∨ (jstep = 1 ∧ ri.jlb = 0) <;>
    by_cases hk : (kstep = -1 ∧ ri.kub = p.nz) ∨ (kstep = 1 ∧ ri.klb = 0) <;>
    simp only [hi, hj, hk, if_true, if_false, or_comm (a := istep = 1 ∧ ri.ilb = 0)] <;>
    simp [axis_events]
  · by_cases hi : (istep = -1 ∧ ri.iub = p.nx) ∨ (istep = 1 ∧ ri.ilb = 0) <;>
    by_cases hj : (jstep = -1 ∧ ri.jub = p.ny) ∨ (jstep = 1 ∧ ri.jlb = 0) <;>
    by_cases hk : (kstep = -1 ∧ ri.kub = p.nz) ∨ (kstep = 1 ∧ ri.klb = 0) <;>
    simp only [hi, hj, hk, if_true, if_false, or_comm (a := jstep = 1 ∧ ri.jlb = 0)] <;>
    simp [axis_events]
  · by_cases hi : (istep = -1 ∧ ri.iub = p.nx) ∨ (istep = 1 ∧ ri.ilb = 0) <;>
    by_cases hj : (jstep = -1 ∧ ri.jub = p.ny) ∨ (jstep = 1 ∧ ri.jlb = 0) <;>
    by_cases hk : (kstep = -1 ∧ ri.kub = p.nz) ∨ (kstep = 1 ∧ ri.klb = 0) <;>
    simp only [hi, hj, hk, if_true, if_false, or_comm (a := kstep = 1 ∧ ri.klb = 0)] <;>
    simp [axis_events]
  · by_cases hi : (istep = -1 ∧ ri.iub = p.nx) ∨ (istep = 1 ∧ ri.ilb = 0) <;>
    by_cases hj : (jstep = -1 ∧ ri.jub = p.ny) ∨ (jstep = 1 ∧ ri.jlb = 0) <;>
    by_cases hk : (kstep = -1 ∧ ri.kub = p.nz) ∨ (kstep = 1 ∧ ri.klb = 0) <;>
    simp only [hi, hj, hk, if_true, if_false] <;>
    simp [axis_events]
  · intro hi hj hk hi0 hj0 hk0
    simp [hi, hj, hk, hi0, hj0, hk0]

theorem recv_boundaries_contract_witness :
    (∀ past c, (mpi_at (row_major problem_s3) (1, 0, 0)).ret past c = MPI_SUCCESS) ∧
    (∀ past c, cl_ok.ret past c = CL_SUCCESS) ∧
    (recv_boundaries (mpi_at (row_major problem_s3) (1, 0, 0)) cl_ok 0 1 1 1
        problem_s3 rankinfo_s3_100 []).trace =
      [.mpi (.Recv .flux_i 256 0) MPI_SUCCESS,
       .cl (.EnqueueWriteBuffer .flux_i true 0 2048 .flux_i) CL_SUCCESS,
       .zero_buffer .flux_j 256,
       .zero_buffer .flux_k 256] :=
  ⟨fun _ _ => rfl, fun _ _ => rfl,
    (recv_boundaries_contract (mpi_at (row_major problem_s3) (1, 0, 0)) cl_ok 0 1 1 1
      problem_s3 rankinfo_s3_100 [] (fun _ _ => rfl) (fun _ _ => rfl)).2.2.2.2.1.trans
      (by decide)⟩

/-- C2: when the library calls succeed and each step is `-1` or `+1`,
whatever came before, `send_boundaries` returns and its trace is the three
reads of the device edge arrays into the host arrays (i and j non-blocking, k
blocking) followed, for each axis in the order x, y, z, by at most one send:
none if the downstream neighbour (`xdown` for `istep = -1`, `xup` for
`istep = +1`) is the rank's own ID, else one send of the host edge array to
that neighbour. -/
theorem send_boundaries_contract (mpi : MPI) (cl : CL) (octant istep jstep kstep : Int)
    (p : problem) (ri : rankinfo) (past : List Event)
    (hi : istep = -1 ∨ istep = 1) (hj : jstep = -1 ∨ jstep = 1) (hk : kstep = -1 ∨ kstep = 1)
    (hmpi : ∀ past c, mpi.ret past c = MPI_SUCCESS)
    (hcl : ∀ past c, cl.ret past c = CL_SUCCESS) :
    send_boundaries mpi cl octant istep jstep kstep p ri past =
      ⟨[.cl (.EnqueueReadBuffer .flux_i false 0
            (size_t_prod sizeof_double [p.nang, p.ng, ri.ny, ri.nz]) .flux_i) CL_SUCCESS,
        .cl (.EnqueueReadBuffer .flux_j false 0
            (size_t_prod sizeof_double [p.nang, p.ng, ri.nx, ri.nz]) .flux_j) CL_SUCCESS,
        .cl (.EnqueueReadBuffer .flux_k true 0
            (size_t_prod sizeof_double [p.nang, p.ng, ri.nx, ri.ny]) .flux_k) CL_SUCCESS] ++
        (if (if istep = -1 then ri.xdown else ri.xup) = ri.rank then []
          else [.mpi (.Send .flux_i (c_int (p.nang * p.ng * ri.ny * ri.nz))
                  (if istep = -1 then ri.xdown else ri.xup)) MPI_SUCCESS]) ++
        (if (if jstep = -1 then ri.ydown else ri.yup) = ri.rank then []
          else [.mpi (.Send .flux_j (c_int (p.nang * p.ng * ri.nx * ri.nz))
                  (if jstep = -1 then ri.ydown else ri.yup)) MPI_SUCCESS]) ++
        (if (if kstep = -1 then ri.zdown else ri.zup) = ri.rank then []
          else [.mpi (.Send .flux_k (c_int (p.nang * p.ng * ri.nx * ri.ny))
                  (if kstep = -1 then ri.zdown else ri.zup)) MPI_SUCCESS]),
       .returned ()⟩ := by
  rw [send_boundaries_success mpi cl octant istep jstep kstep p ri hmpi hcl past]
  have key : ∀ (step down up rank : Int) (b : Edge) (n : Int), (step = -1 ∨ step = 1) →
      (if step = -1 ∧ down ≠ rank then [Event.mpi (.Send b n down) MPI_SUCCESS]
        else if step = 1 ∧ up ≠ rank then [Event.mpi (.Send b n up) MPI_SUCCESS]
        else []) =
      (if (if step = -1 then down else up) = rank then []
        else [Event.mpi (.Send b n (if step = -1 then down else up)) MPI_SUCCESS]) := by
    intro step down up rank b n hs
    rcases hs with rfl | rfl <;> by_cases h1 : down = rank <;> by_cases h2 : up = rank <;>
      simp [h1, h2]
  rw [key istep _ _ _ _ _ hi, key jstep _ _ _ _ _ hj, key kstep _ _ _ _ _ hk]
  simp

theorem send_boundaries_contract_witness :
    send_boundaries (mpi_at (row_major problem_s3) (0, 0, 0)) cl_ok 0 1 (-1) 1
        problem_s3 rankinfo_s3_000 [] =
      ⟨[.cl (.EnqueueReadBuffer .flux_i false 0 2048 .flux_i) CL_SUCCESS,
        .cl (.EnqueueReadBuffer .flux_j false 0 2048 .flux_j) CL_SUCCESS,
        .cl (.EnqueueReadBuffer .flux_k true 0 2048 .flux_k) CL_SUCCESS,
        .mpi (.Send .flux_i 256 4) MPI_SUCCESS,
        .mpi (.Send .flux_k 256 1) MPI_SUCCESS],
       .returned ()⟩ :=
  (send_boundaries_contract (mpi_at (row_major problem_s3) (0, 0, 0)) cl_ok 0 1 (-1) 1
    problem_s3 rankinfo_s3_000 [] (by decide) (by decide) (by decide)
    (fun _ _ => rfl) (fun _ _ => rfl)).trans (by decide)

theorem mpi_check_success {α : Type} (mpi : MPI) (c : MpiCall) (msg : String)
    (k : Unit → Run α) (hmpi : ∀ past c, mpi.ret past c = MPI_SUCCESS) :
    Run.bind (mpi_call mpi c) (fun e => Run.bind (check_mpi e msg) k) =
      Run.bind (emit (.mpi c MPI_SUCCESS)) k := by
  funext past
  simp [Run.bind, Run.pure, mpi_call, check_mpi, emit, hmpi]

theorem calculate_neighbours_success (mpi : MPI) (p : problem) (ri : rankinfo)
    (hmpi : ∀ past c, mpi.ret past c = MPI_SUCCESS) (past : List Event) :
    calculate_neighbours mpi p ri past =
      ⟨[.mpi (.Cart_rank (if ri.ranks.1 = p.npex - 1 then ri.ranks.1 else ri.ranks.1 + 1,
            ri.ranks.2.1, ri.ranks.2.2)) MPI_SUCCESS,
        .mpi (.Cart_rank (if ri.ranks.1 = 0 then ri.ranks.1 else ri.ranks.1 - 1,
            ri.ranks.2.1, ri.ranks.2.2)) MPI_SUCCESS,
        .mpi (.Cart_rank (ri.ranks.1,
            if ri.ranks.2.1 = p.npey - 1 then ri.ranks.2.1 else ri.ranks.2.1 + 1,
            ri.ranks.2.2)) MPI_SUCCESS,
        .mpi (.Cart_rank (ri.ranks.1,
            if ri.ranks.2.1 = 0 then ri.ranks.2.1 else ri.ranks.2.1 - 1,
            ri.ranks.2.2)) MPI_SUCCESS,
        .mpi (.Cart_rank (ri.ranks.1, ri.ranks.2.1,
            if ri.ranks.2.2 = p.npez - 1 then ri.ranks.2.2 else ri.ranks.2.2 + 1)) MPI_SUCCESS,
        .mpi (.Cart_rank (ri.ranks.1, ri.ranks.2.1,
            if ri.ranks.2.2 = 0 then ri.ranks.2.2 else ri.ranks.2.2 - 1)) MPI_SUCCESS],
       .returned
        { ri with
          xup := mpi.cart_rank (if ri.ranks.1 = p.npex - 1 then ri.ranks.1 else ri.ranks.1 + 1,
            ri.ranks.2.1, ri.ranks.2.2)
          xdown := mpi.cart_rank (if ri.ranks.1 = 0 then ri.ranks.1 else ri.ranks.1 - 1,
            ri.ranks.2.1, ri.ranks.2.2)
          yup := mpi.cart_rank (ri.ranks.1,
            if ri.ranks.2.1 = p.npey - 1 then ri.ranks.2.1 else ri.ranks.2.1 + 1,
            ri.ranks.2.2)
          ydown := mpi.cart_rank (ri.ranks.1,
            if ri.ranks.2.1 = 0 then ri.ranks.2.1 else ri.ranks.2.1 - 1,
            ri.ranks.2.2)
          zup := mpi.cart_rank (ri.ranks.1, ri.ranks.2.1,
            if ri.ranks.2.2 = p.npez - 1 then ri.ranks.2.2 else ri.ranks.2.2 + 1)
          zdown := mpi.cart_rank (ri.ranks.1, ri.ranks.2.1,
            if ri.ranks.2.2 = 0 then ri.ranks.2.2 else ri.ranks.2.2 - 1) }⟩ := by
  unfold calculate_neighbours
  simp only [bind_def, pure_def, mpi_check_success _ _ _ _ hmpi]
  simp [Run.bind, Run.pure, emit]

theorem setup_comms_success (mpi : MPI) (p : problem) (ri : rankinfo)
    (hmpi : ∀ past c, mpi.ret past c = MPI_SUCCESS) (past : List Event) :
    (setup_comms mpi p ri past).outcome =
      .returned
        { rank := mpi.comm_rank
          ranks := mpi.cart_coords mpi.comm_rank
          nx := Int.tdiv p.nx p.npex
          ny := Int.tdiv p.ny p.npey
          nz := Int.tdiv p.nz p.npez
          ilb := (mpi.cart_coords mpi.comm_rank).1 * Int.tdiv p.nx p.npex
          iub := ((mpi.cart_coords mpi.comm_rank).1 + 1) * Int.tdiv p.nx p.npex
          jlb := (mpi.cart_coords mpi.comm_rank).2.1 * Int.tdiv p.ny p.npey
          jub := ((mpi.cart_coords mpi.comm_rank).2.1 + 1) * Int.tdiv p.ny p.npey
          klb := (mpi.cart_coords mpi.comm_rank).2.2 * Int.tdiv p.nz p.npez
          kub := ((mpi.cart_coords mpi.comm_rank).2.2 + 1) * Int.tdiv p.nz p.npez
          xup := mpi.cart_rank
            (if (mpi.cart_coords mpi.comm_rank).1 = p.npex - 1
              then (mpi.cart_coords mpi.comm_rank).1 else (mpi.cart_coords mpi.comm_rank).1 + 1,
             (mpi.cart_coords mpi.comm_rank).2.1, (mpi.cart_coords mpi.comm_rank).2.2)
          xdown := mpi.cart_rank
            (if (mpi.cart_coords mpi.comm_rank).1 = 0
              then (mpi.cart_coords mpi.comm_rank).1 else (mpi.cart_coords mpi.comm_rank).1 - 1,
             (mpi.cart_coords mpi.comm_rank).2.1, (mpi.cart_coords mpi.comm_rank).2.2)
          yup := mpi.cart_rank
            ((mpi.cart_coords mpi.comm_rank).1,
             if (mpi.cart_coords mpi.comm_rank).2.1 = p.npey - 1
              then (mpi.cart_coords mpi.comm_rank).2.1
              else (mpi.cart_coords mpi.comm_rank).2.1 + 1,
             (mpi.cart_coords mpi.comm_rank).2.2)
          ydown := mpi.cart_rank
            ((mpi.cart_coords mpi.comm_rank).1,
             if (mpi.cart_coords mpi.comm_rank).2.1 = 0
              then (mpi.cart_coords mpi.comm_rank).2.1
              else (mpi.cart_coords mpi.comm_rank).2.1 - 1,
             (mpi.cart_coords mpi.comm_rank).2.2)
          zup := mpi.cart_rank
            ((mpi.cart_coords mpi.comm_rank).1, (mpi.cart_coords mpi.comm_rank).2.1,
             if (mpi.cart_coords mpi.comm_rank).2.2 = p.npez - 1
              then (mpi.cart_coords mpi.comm_rank).2.2
              else (mpi.cart_coords mpi.comm_rank).2.2 + 1)
          zdown := mpi.cart_rank
            ((mpi.cart_coords mpi.comm_rank).1, (mpi.cart_coords mpi.comm_rank).2.1,
             if (mpi.cart_coords mpi.comm_rank).2.2 = 0
              then (mpi.cart_coords mpi.comm_rank).2.2
              else (mpi.cart_coords mpi.comm_rank).2.2 - 1) } := by
  unfold setup_comms
  simp only [bind_def, pure_def, mpi_check_success _ _ _ _ hmpi]
  simp [Run.bind, Run.pure, emit, calculate_neighbours_success _ _ _ hmpi]

theorem setup_geometry_eq (lookup : Int × Int × Int → Int) (p : problem)
    (c : Int × Int × Int) :
    ∃ ri, setup_geometry lookup p c = some ri ∧
      ri.rank = lookup c ∧ ri.ranks = c ∧
      ri.nx = Int.tdiv p.nx p.npex ∧ ri.ny = Int.tdiv p.ny p.npey ∧
      ri.nz = Int.tdiv p.nz p.npez ∧
      ri.ilb = c.1 * ri.nx ∧ ri.iub = (c.1 + 1) * ri.nx ∧
      ri.jlb = c.2.1 * ri.ny ∧ ri.jub = (c.2.1 + 1) * ri.ny ∧
      ri.klb = c.2.2 * ri.nz ∧ ri.kub = (c.2.2 + 1) * ri.nz ∧
      ri.xup = lookup (if c.1 = p.npex - 1 then c.1 else c.1 + 1, c.2.1, c.2.2) ∧
      ri.xdown = lookup (if c.1 = 0 then c.1 else c.1 - 1, c.2.1, c.2.2) ∧
      ri.yup = lookup (c.1, if c.2.1 = p.npey - 1 then c.2.1 else c.2.1 + 1, c.2.2) ∧
      ri.ydown = lookup (c.1, if c.2.1 = 0 then c.2.1 else c.2.1 - 1, c.2.2) ∧
      ri.zup = lookup (c.1, c.2.1, if c.2.2 = p.npez - 1 then c.2.2 else c.2.2 + 1) ∧
      ri.zdown = lookup (c.1, c.2.1, if c.2.2 = 0 then c.2.2 else c.2.2 - 1) := by
  unfold setup_geometry
  rw [setup_comms_success (mpi_at lookup c) p rankinfo_blank (fun _ _ => rfl)]
  exact ⟨_, rfl, rfl, rfl, rfl, rfl, rfl, rfl, rfl, rfl, rfl, rfl, rfl, rfl, rfl, rfl, rfl, rfl, rfl⟩

/-- One axis of the tiling: a cell of `[0, npe * n)` lies in the slab of
exactly the coordinate `i / n`. -/
theorem slab_cover (npe n i : Int) (h0 : 0 ≤ i) (h1 : i < npe * n) (hnpe : 1 ≤ npe) :
    ∃ r, (0 ≤ r ∧ r < npe) ∧ r * n ≤ i ∧ i < (r + 1) * n := by
  have hn : 0 < n := by
    by_contra hn
    have : npe * n ≤ 0 := by nlinarith
    omega
  refine ⟨i / n, ⟨Int.ediv_nonneg h0 hn.le, Int.ediv_lt_of_lt_mul hn h1⟩,
    Int.ediv_mul_le i hn.ne', Int.lt_ediv_add_one_mul_self i hn⟩

theorem slab_inside (npe n r i : Int) (hr : 0 ≤ r ∧ r < npe) (h0 : r * n ≤ i)
    (h1 : i < (r + 1) * n) : 0 ≤ i ∧ i < npe * n := by
  have hn : 0 < n := by nlinarith
  constructor
  · nlinarith [mul_nonneg hr.1 hn.le]
  · have : (r + 1) * n ≤ npe * n := by
      apply mul_le_mul_of_nonneg_right _ hn.le
      omega
    omega

theorem slab_unique (n r r' i : Int) (h0 : r * n ≤ i) (h1 : i < (r + 1) * n)
    (h0' : r' * n ≤ i) (h1' : i < (r' + 1) * n) : r = r' := by
  have hn : 0 < n := by nlinarith
  rcases lt_trichotomy r r' with h | h | h
  · exfalso
    have : (r + 1) * n ≤ r' * n := mul_le_mul_of_nonneg_right (by omega) hn.le
    omega
  · exact h
  · exfalso
    have : (r' + 1) * n ≤ r * n := mul_le_mul_of_nonneg_right (by omega) hn.le
    omega

/-- C3: for a valid Problem (`npex, npey, npez >= 1`, `nx % npex == 0` and
likewise y, z) `setup_comms` on the rank at coordinates `(rx, ry, rz)` returns,
whatever came before, with `nx_r = nx / npex` an exact quotient, `ilb = rx * nx_r`,
`iub = (rx + 1) * nx_r` (likewise j, k); a cell is in the global domain exactly
when it is in the box of some rank of the grid, that rank is unique, and the
local cell counts of all ranks add up to `nx * ny * nz`. -/
theorem setup_comms_decomposition (p : problem) (lookup : Int × Int × Int → Int)
    (hx : 1 ≤ p.npex) (hy : 1 ≤ p.npey) (hz : 1 ≤ p.npez)
    (hdx : Int.tmod p.nx p.npex = 0) (hdy : Int.tmod p.ny p.npey = 0)
    (hdz : Int.tmod p.nz p.npez = 0) :
    (∀ c ri0 past, ∃ ri, (setup_comms (mpi_at lookup c) p ri0 past).outcome = .returned ri ∧
      setup_geometry lookup p c = some ri ∧
      ri.nx = Int.tdiv p.nx p.npex ∧ ri.ny = Int.tdiv p.ny p.npey ∧
      ri.nz = Int.tdiv p.nz p.npez ∧
      p.npex * ri.nx = p.nx ∧ p.npey * ri.ny = p.ny ∧ p.npez * ri.nz = p.nz ∧
      ri.ilb = c.1 * ri.nx ∧ ri.iub = (c.1 + 1) * ri.nx ∧
      ri.jlb = c.2.1 * ri.ny ∧ ri.jub = (c.2.1 + 1) * ri.ny ∧
      ri.klb = c.2.2 * ri.nz ∧ ri.kub = (c.2.2 + 1) * ri.nz) ∧
    (∀ i j k, in_domain p i j k ↔
      ∃ c ri, in_grid p c ∧ setup_geometry lookup p c = some ri ∧ in_box ri i j k) ∧
    (∀ c c' ri ri' i j k, in_grid p c → in_grid p c' →
      setup_geometry lookup p c = some ri → setup_geometry lookup p c' = some ri' →
      in_box ri i j k → in_box ri' i j k → c = c') ∧
    (Finset.sum (Finset.range p.npex.toNat) fun rx =>
      Finset.sum (Finset.range p.npey.toNat) fun ry =>
        Finset.sum (Finset.range p.npez.toNat) fun rz =>
          local_cells lookup p ((rx : Int), (ry : Int), (rz : Int))) = p.nx * p.ny * p.nz := by
  have ex : p.npex * Int.tdiv p.nx p.npex = p.nx := Int.mul_tdiv_cancel' (Int.dvd_of_tmod_eq_zero hdx)
  have ey : p.npey * Int.tdiv p.ny p.npey = p.ny := Int.mul_tdiv_cancel' (Int.dvd_of_tmod_eq_zero hdy)
  have ez : p.npez * Int.tdiv p.nz p.npez = p.nz := Int.mul_tdiv_cancel' (Int.dvd_of_tmod_eq_zero hdz)
  refine ⟨?_, ?_, ?_, ?_⟩
  · intro c ri0 past
    obtain ⟨ri, hg, -, -, hnx, hny, hnz, h1, h2, h3, h4, h5, h6, -⟩ := setup_geometry_eq lookup p c
    refine ⟨ri, ?_, hg, hnx, hny, hnz, by rw [hnx]; exact ex, by rw [hny]; exact ey,
      by rw [hnz]; exact ez, h1, h2, h3, h4, h5, h6⟩
    have hblank := setup_comms_success (mpi_at lookup c) p rankinfo_blank (fun _ _ => rfl) []
    have h0 := setup_comms_success (mpi_at lookup c) p ri0 (fun _ _ => rfl) past
    unfold setup_geometry at hg
    rw [hblank] at hg
    rw [h0]
    simpa using hg
  · intro i j k
    constructor
    · rintro ⟨⟨hi0, hi1⟩, ⟨hj0, hj1⟩, ⟨hk0, hk1⟩⟩
      rw [← ex] at hi1
      rw [← ey] at hj1
      rw [← ez] at hk1
      obtain ⟨rx, hrx, hx0, hx1⟩ := slab_cover _ _ i hi0 hi1 hx
      obtain ⟨ry, hry, hy0, hy1⟩ := slab_cover _ _ j hj0 hj1 hy
      obtain ⟨rz, hrz, hz0, hz1⟩ := slab_cover _ _ k hk0 hk1 hz
      obtain ⟨ri, hg, -, -, hnx, hny, hnz, h1, h2, h3, h4, h5, h6, -⟩ :=
        setup_geometry_eq lookup p (rx, ry, rz)
      refine ⟨(rx, ry, rz), ri, ⟨hrx, hry, hrz⟩, hg, ?_⟩
      simp only [in_box, h1, h2, h3, h4, h5, h6, hnx, hny, hnz]
      exact ⟨⟨hx0, hx1⟩, ⟨hy0, hy1⟩, ⟨hz0, hz1⟩⟩
    · rintro ⟨c, ri, ⟨hcx, hcy, hcz⟩, hg, hb⟩
      obtain ⟨ri2, hg2, -, -, hnx, hny, hnz, h1, h2, h3, h4, h5, h6, -⟩ :=
        setup_geometry_eq lookup p c
      rw [hg] at hg2
      obtain rfl : ri = ri2 := by simpa using hg2
      simp only [in_box, h1, h2, h3, h4, h5, h6, hnx, hny, hnz] at hb
      obtain ⟨⟨hx0, hx1⟩, ⟨hy0, hy1⟩, ⟨hz0, hz1⟩⟩ := hb
      have bx := slab_inside p.npex _ c.1 i hcx hx0 hx1
      have by1 := slab_inside p.npey _ c.2.1 j hcy hy0 hy1
      have bz := slab_inside p.npez _ c.2.2 k hcz hz0 hz1
      rw [ex] at bx
      rw [ey] at by1
      rw [ez] at bz
      exact ⟨bx, by1, bz⟩
  · intro c c' ri ri' i j k _ _ hg hg' hb hb'
    obtain ⟨ri2, hg2, -, -, hnx, hny, hnz, h1, h2, h3, h4, h5, h6, -⟩ :=
      setup_geometry_eq lookup p c
    rw [hg] at hg2
    obtain rfl : ri = ri2 := by simpa using hg2
    obtain ⟨ri3, hg3, -, -, hnx', hny', hnz', h1', h2', h3', h4', h5', h6', -⟩ :=
      setup_geometry_eq lookup p c'
    rw [hg'] at hg3
    obtain rfl : ri' = ri3 := by simpa using hg3
    simp only [in_box, h1, h2, h3, h4, h5, h6, hnx, hny, hnz] at hb
    simp only [in_box, h1', h2', h3', h4', h5', h6', hnx', hny', hnz'] at hb'
    obtain ⟨⟨hx0, hx1⟩, ⟨hy0, hy1⟩, ⟨hz0, hz1⟩⟩ := hb
    obtain ⟨⟨hx0', hx1'⟩, ⟨hy0', hy1'⟩, ⟨hz0', hz1'⟩⟩ := hb'
    have e1 := slab_unique _ _ _ i hx0 hx1 hx0' hx1'
    have e2 := slab_unique _ _ _ j hy0 hy1 hy0' hy1'
    have e3 := slab_unique _ _ _ k hz0 hz1 hz0' hz1'
    exact Prod.ext e1 (Prod.ext e2 e3)
  · have hcells : ∀ c, local_cells lookup p c =
        Int.tdiv p.nx p.npex * Int.tdiv p.ny p.npey * Int.tdiv p.nz p.npez := by
      intro c
      obtain ⟨ri, hg, -, -, hnx, hny, hnz, -⟩ := setup_geometry_eq lookup p c
      simp [local_cells, hg, hnx, hny, hnz]
    simp only [hcells, Finset.sum_const, Finset.card_range, nsmul_eq_mul]
    have cx : ((p.npex.toNat : Nat) : Int) = p.npex := Int.toNat_of_nonneg (by omega)
    have cy : ((p.npey.toNat : Nat) : Int) = p.npey := Int.toNat_of_nonneg (by omega)
    have cz : ((p.npez.toNat : Nat) : Int) = p.npez := Int.toNat_of_nonneg (by omega)
    rw [cx, cy, cz]
    calc p.npex * (p.npey * (p.npez *
            (Int.tdiv p.nx p.npex * Int.tdiv p.ny p.npey * Int.tdiv p.nz p.npez)))
        = (p.npex * Int.tdiv p.nx p.npex) * (p.npey * Int.tdiv p.ny p.npey) *
            (p.npez * Int.tdiv p.nz p.npez) := by ring
      _ = p.nx * p.ny * p.nz := by rw [ex, ey, ez]

theorem setup_comms_decomposition_witness :
    (Finset.sum (Finset.range problem_s3.npex.toNat) fun rx =>
      Finset.sum (Finset.range problem_s3.npey.toNat) fun ry =>
        Finset.sum (Finset.range problem_s3.npez.toNat) fun rz =>
          local_cells (row_major problem_s3) problem_s3 ((rx : Int), (ry : Int), (rz : Int))) =
      problem_s3.nx * problem_s3.ny * problem_s3.nz :=
  (setup_comms_decomposition problem_s3 (row_major problem_s3)
    (by decide) (by decide) (by decide) (by decide) (by decide) (by decide)).2.2.2

/-- C4: on a rank whose coordinates `(rx, ry, rz)` lie in the rank grid, with
the MPI calls succeeding, whatever came before, `calculate_neighbours` makes
six lookups, at
coordinates that differ from the rank's own in the stepped axis only, the
stepped coordinate being `min (c + 1) (npe - 1)` (up) or `max (c - 1) 0`
(down); all of them lie in the rank grid; each neighbour field holds the
answer of its lookup; and, the lookup being injective on the grid and sending
the rank's own coordinates to its own ID, a neighbour equals the rank's own ID
exactly when the rank is on the external boundary in that direction. -/
theorem calculate_neighbours_contract (mpi : MPI) (p : problem) (ri : rankinfo)
    (past : List Event)
    (hmpi : ∀ past c, mpi.ret past c = MPI_SUCCESS) (hgrid : in_grid p ri.ranks)
    (hinj : ∀ c c', in_grid p c → in_grid p c' → mpi.cart_rank c = mpi.cart_rank c' → c = c')
    (hself : mpi.cart_rank ri.ranks = ri.rank) :
    ∃ ri', calculate_neighbours mpi p ri past =
        ⟨[.mpi (.Cart_rank (min (ri.ranks.1 + 1) (p.npex - 1), ri.ranks.2.1, ri.ranks.2.2))
            MPI_SUCCESS,
          .mpi (.Cart_rank (max (ri.ranks.1 - 1) 0, ri.ranks.2.1, ri.ranks.2.2)) MPI_SUCCESS,
          .mpi (.Cart_rank (ri.ranks.1, min (ri.ranks.2.1 + 1) (p.npey - 1), ri.ranks.2.2))
            MPI_SUCCESS,
          .mpi (.Cart_rank (ri.ranks.1, max (ri.ranks.2.1 - 1) 0, ri.ranks.2.2)) MPI_SUCCESS,
          .mpi (.Cart_rank (ri.ranks.1, ri.ranks.2.1, min (ri.ranks.2.2 + 1) (p.npez - 1)))
            MPI_SUCCESS,
          .mpi (.Cart_rank (ri.ranks.1, ri.ranks.2.1, max (ri.ranks.2.2 - 1) 0)) MPI_SUCCESS],
         .returned ri'⟩ ∧
      (∀ c code, Event.mpi (.Cart_rank c) code ∈ (calculate_neighbours mpi p ri past).trace →
        in_grid p c) ∧
      ri'.rank = ri.rank ∧ ri'.ranks = ri.ranks ∧
      ri'.xup = mpi.cart_rank (min (ri.ranks.1 + 1) (p.npex - 1), ri.ranks.2.1, ri.ranks.2.2) ∧
      ri'.xdown = mpi.cart_rank (max (ri.ranks.1 - 1) 0, ri.ranks.2.1, ri.ranks.2.2) ∧
      ri'.yup = mpi.cart_rank (ri.ranks.1, min (ri.ranks.2.1 + 1) (p.npey - 1), ri.ranks.2.2) ∧
      ri'.ydown = mpi.cart_rank (ri.ranks.1, max (ri.ranks.2.1 - 1) 0, ri.ranks.2.2) ∧
      ri'.zup = mpi.cart_rank (ri.ranks.1, ri.ranks.2.1, min (ri.ranks.2.2 + 1) (p.npez - 1)) ∧
      ri'.zdown = mpi.cart_rank (ri.ranks.1, ri.ranks.2.1, max (ri.ranks.2.2 - 1) 0) ∧
      (ri'.xup = ri'.rank ↔ ri.ranks.1 = p.npex - 1) ∧
      (ri'.xdown = ri'.rank ↔ ri.ranks.1 = 0) ∧
      (ri'.yup = ri'.rank ↔ ri.ranks.2.1 = p.npey - 1) ∧
      (ri'.ydown = ri'.rank ↔ ri.ranks.2.1 = 0) ∧
      (ri'.zup = ri'.rank ↔ ri.ranks.2.2 = p.npez - 1) ∧
      (ri'.zdown = ri'.rank ↔ ri.ranks.2.2 = 0) := by
  obtain ⟨rank, ⟨rx, ry, rz⟩, nx, ny, nz, ilb, iub, jlb, jub, klb, kub, xup, xdown, yup, ydown,
    zup, zdown⟩ := ri
  obtain ⟨⟨hx0, hx1⟩, ⟨hy0, hy1⟩, ⟨hz0, hz1⟩⟩ := hgrid
  simp only at hx0 hx1 hy0 hy1 hz0 hz1 hself
  simp only
  have eux : (if rx = p.npex - 1 then rx else rx + 1) = min (rx + 1) (p.npex - 1) := by
    split_ifs with h <;> omega
  have edx : (if rx = 0 then rx else rx - 1) = max (rx - 1) 0 := by
    split_ifs with h <;> omega
  have euy : (if ry = p.npey - 1 then ry else ry + 1) = min (ry + 1) (p.npey - 1) := by
    split_ifs with h <;> omega
  have edy : (if ry = 0 then ry else ry - 1) = max (ry - 1) 0 := by
    split_ifs with h <;> omega
  have euz : (if rz = p.npez - 1 then rz else rz + 1) = min (rz + 1) (p.npez - 1) := by
    split_ifs with h <;> omega
  have edz : (if rz = 0 then rz else rz - 1) = max (rz - 1) 0 := by
    split_ifs with h <;> omega
  have hrun := calculate_neighbours_success mpi p
    ⟨rank, ⟨rx, ry, rz⟩, nx, ny, nz, ilb, iub, jlb, jub, klb, kub, xup, xdown, yup, ydown,
      zup, zdown⟩ hmpi past
  simp only [eux, edx, euy, edy, euz, edz] at hrun
  have hme : in_grid p (rx, ry, rz) := ⟨⟨hx0, hx1⟩, ⟨hy0, hy1⟩, ⟨hz0, hz1⟩⟩
  have gux : in_grid p (min (rx + 1) (p.npex - 1), ry, rz) :=
    ⟨⟨le_min (by omega) (by omega), min_lt_of_right_lt (by omega)⟩, ⟨hy0, hy1⟩, ⟨hz0, hz1⟩⟩
  have gdx : in_grid p (max (rx - 1) 0, ry, rz) :=
    ⟨⟨le_max_right _ _, max_lt (by omega) (by omega)⟩, ⟨hy0, hy1⟩, ⟨hz0, hz1⟩⟩
  have guy : in_grid p (rx, min (ry + 1) (p.npey - 1), rz) :=
    ⟨⟨hx0, hx1⟩, ⟨le_min (by omega) (by omega), min_lt_of_right_lt (by omega)⟩, ⟨hz0, hz1⟩⟩
  have gdy : in_grid p (rx, max (ry - 1) 0, rz) :=
    ⟨⟨hx0, hx1⟩, ⟨le_max_right _ _, max_lt (by omega) (by omega)⟩, ⟨hz0, hz1⟩⟩
  have guz : in_grid p (rx, ry, min (rz + 1) (p.npez - 1)) :=
    ⟨⟨hx0, hx1⟩, ⟨hy0, hy1⟩, ⟨le_min (by omega) (by omega), min_lt_of_right_lt (by omega)⟩⟩
  have gdz : in_grid p (rx, ry, max (rz - 1) 0) :=
    ⟨⟨hx0, hx1⟩, ⟨hy0, hy1⟩, ⟨le_max_right _ _, max_lt (by omega) (by omega)⟩⟩
  have self_iff : ∀ c, in_grid p c → (mpi.cart_rank c = rank ↔ c = (rx, ry, rz)) := by
    intro c hc
    constructor
    · intro h
      exact hinj c (rx, ry, rz) hc hme (h.trans hself.symm)
    · intro h
      rw [h, hself]
  refine ⟨_, hrun, ?_, rfl, rfl, rfl, rfl, rfl, rfl, rfl, rfl, ?_, ?_, ?_, ?_, ?_, ?_⟩
  · intro c code hc
    rw [hrun] at hc
    simp only [List.mem_cons, Event.mpi.injEq, MpiCall.Cart_rank.injEq, List.mem_nil_iff,
      or_false] at hc
    rcases hc with ⟨rfl, -⟩ | ⟨rfl, -⟩ | ⟨rfl, -⟩ | ⟨rfl, -⟩ | ⟨rfl, -⟩ | ⟨rfl, -⟩
    · exact gux
    · exact gdx
    · exact guy
    · exact gdy
    · exact guz
    · exact gdz
  · simp only [self_iff _ gux, Prod.mk.injEq, and_true]
    omega
  · simp only [self_iff _ gdx, Prod.mk.injEq, and_true]
    omega
  · simp only [self_iff _ guy, Prod.mk.injEq, and_true, true_and]
    omega
  · simp only [self_iff _ gdy, Prod.mk.injEq, and_true, true_and]
    omega
  · simp only [self_iff _ guz, Prod.mk.injEq, and_true, true_and]
    omega
  · simp only [self_iff _ gdz, Prod.mk.injEq, and_true, true_and]
    omega

theorem row_major_s3_injective (c c' : Int × Int × Int) (hc : in_grid problem_s3 c)
    (hc' : in_grid problem_s3 c')
    (h : (mpi_at (row_major problem_s3) (1, 0, 0)).cart_rank c =
      (mpi_at (row_major problem_s3) (1, 0, 0)).cart_rank c') : c = c' := by
  obtain ⟨a, b, d⟩ := c
  obtain ⟨a', b', d'⟩ := c'
  simp only [in_grid, problem_s3] at hc hc'
  simp only [mpi_at, row_major, problem_s3] at h
  simp only [Prod.mk.injEq]
  omega

theorem calculate_neighbours_contract_witness :
    in_grid problem_s3 (1, 0, 0) ∧
    ∃ ri', (calculate_neighbours (mpi_at (row_major problem_s3) (1, 0, 0)) problem_s3
        { rankinfo_blank with rank := 4, ranks := (1, 0, 0) } []).outcome = .returned ri' ∧
      ri'.xup = ri'.rank ∧ ri'.xdown ≠ ri'.rank := by
  have hgrid : in_grid problem_s3 (1, 0, 0) :=
    ⟨⟨by decide, by decide⟩, ⟨by decide, by decide⟩, ⟨by decide, by decide⟩⟩
  obtain ⟨ri', hrun, -, -, -, -, -, -, -, -, -, hxup, hxdown, -⟩ :=
    calculate_neighbours_contract (mpi_at (row_major problem_s3) (1, 0, 0)) problem_s3
      { rankinfo_blank with rank := 4, ranks := (1, 0, 0) } [] (fun _ _ => rfl) hgrid
      row_major_s3_injective (by decide)
  refine ⟨hgrid, ri', by rw [hrun], hxup.2 (by decide), fun h => ?_⟩
  have := hxdown.1 h
  revert this
  decide

theorem AllEv_bind {α β : Type} (P : Event → Prop) (m : Run α) (k : α → Run β)
    (past : List Event) (hm : AllEv P (m past)) (hk : ∀ a past', AllEv P (k a past')) :
    AllEv P (Run.bind m k past) := by
  unfold AllEv at hm ⊢
  unfold Run.bind
  cases hmo : (m past).outcome with
  | exited s => simpa using hm
  | returned a =>
    intro e he
    simp only [List.mem_append] at he
    rcases he with he | he
    · exact hm e he
    · exact hk a _ e he

theorem AllEv_mpi_check (P : Event → Prop) (mpi : MPI) (c : MpiCall) (msg : String)
    (past : List Event)
    (hc : ∀ code, P (.mpi c code)) (hf : ∀ s, P (.fprintf_stderr s)) (hx : ∀ s, P (.exit s)) :
    AllEv P (Run.bind (mpi_call mpi c) (fun e => check_mpi e msg) past) := by
  by_cases h : mpi.ret past c = MPI_SUCCESS
  · simp [AllEv, Run.bind, Run.pure, mpi_call, check_mpi, h, hc]
  · simp [AllEv, Run.bind, mpi_call, check_mpi, h, hc, hf, hx, fprintf_stderr, emit, exit]

theorem AllEv_cl_check (P : Event → Prop) (cl : CL) (c : ClCall) (msg : String)
    (past : List Event)
    (hc : ∀ code, P (.cl c code)) (hf : ∀ s, P (.fprintf_stderr s)) (hx : ∀ s, P (.exit s)) :
    AllEv P (Run.bind (cl_call cl c) (fun e => check_ocl e msg) past) := by
  by_cases h : cl.ret past c = CL_SUCCESS
  · simp [AllEv, Run.bind, Run.pure, cl_call, check_ocl, h, hc]
  · simp [AllEv, Run.bind, cl_call, check_ocl, h, hc, hf, hx, fprintf_stderr, emit, exit]

theorem AllEv_cl_call (P : Event → Prop) (cl : CL) (c : ClCall) (past : List Event)
    (hc : ∀ code, P (.cl c code)) : AllEv P (cl_call cl c past) := by
  simp [AllEv, cl_call, hc]

theorem AllEv_check_ocl (P : Event → Prop) (err : Int) (msg : String) (past : List Event)
    (hf : ∀ s, P (.fprintf_stderr s)) (hx : ∀ s, P (.exit s)) :
    AllEv P (check_ocl err msg past) := by
  by_cases h : err = CL_SUCCESS
  · simp [AllEv, check_ocl, h, Run.pure]
  · simp [AllEv, Run.bind, check_ocl, h, hf, hx, fprintf_stderr, emit, exit]

theorem recv_axis_all (P : Event → Prop) (mpi : MPI) (cl : CL) (step ub extent lb : Int)
    (b : Edge) (count : Int) (bytes : Nat) (up down : Int) (up_msg down_msg copy_msg : String)
    (past : List Event)
    (hz : P (.zero_buffer b count)) (hr : ∀ src code, P (.mpi (.Recv b (c_int count) src) code))
    (hc : ∀ c code, P (.cl c code)) (hf : ∀ s, P (.fprintf_stderr s))
    (hx : ∀ s, P (.exit s)) :
    AllEv P (recv_axis mpi cl step ub extent lb b count bytes up down up_msg down_msg
      copy_msg past) := by
  unfold recv_axis
  simp only [bind_def, pure_def]
  split_ifs
  · simpa [AllEv, zero_buffer, emit] using hz
  · rw [← Run.bind_assoc]
    exact AllEv_bind P _ _ _ (AllEv_mpi_check P mpi _ _ _ (hr _) hf hx)
      (fun _ _ => AllEv_cl_check P cl _ _ _ (hc _) hf hx)
  · rw [← Run.bind_assoc]
    exact AllEv_bind P _ _ _ (AllEv_mpi_check P mpi _ _ _ (hr _) hf hx)
      (fun _ _ => AllEv_cl_check P cl _ _ _ (hc _) hf hx)

theorem send_axis_all (P : Event → Prop) (mpi : MPI) (step rank : Int) (b : Edge)
    (count down up : Int) (down_msg up_msg : String) (past : List Event)
    (hs : ∀ dst code, P (.mpi (.Send b (c_int count) dst) code))
    (hf : ∀ s, P (.fprintf_stderr s)) (hx : ∀ s, P (.exit s)) :
    AllEv P (send_axis mpi step rank b count down up down_msg up_msg past) := by
  unfold send_axis
  simp only [bind_def, pure_def]
  split_ifs
  · exact AllEv_mpi_check P mpi _ _ _ (hs _) hf hx
  · exact AllEv_mpi_check P mpi _ _ _ (hs _) hf hx
  · simp [AllEv, Run.pure]

theorem recv_boundaries_count (mpi : MPI) (cl : CL) (octant istep jstep kstep : Int)
    (p : problem) (ri : rankinfo) (past : List Event) :
    AllEv (count_ok p ri) (recv_boundaries mpi cl octant istep jstep kstep p ri past) := by
  rw [recv_boundaries_blocks]
  refine AllEv_bind _ _ _ _ ?_ (fun _ _ => AllEv_bind _ _ _ _ ?_ (fun _ _ => ?_)) <;>
    exact recv_axis_all _ _ _ _ _ _ _ _ _ _ _ _ _ _ _ _ trivial (fun _ _ => rfl)
      (fun _ _ => trivial) (fun _ => trivial) (fun _ => trivial)

theorem send_boundaries_count (mpi : MPI) (cl : CL) (octant istep jstep kstep : Int)
    (p : problem) (ri : rankinfo) (past : List Event) :
    AllEv (count_ok p ri) (send_boundaries mpi cl octant istep jstep kstep p ri past) := by
  rw [send_boundaries_blocks]
  have hcl : ∀ c past', AllEv (count_ok p ri) (cl_call cl c past') :=
    fun c past' => AllEv_cl_call _ cl c past' (fun _ => trivial)
  have hck : ∀ err msg past', AllEv (count_ok p ri) (check_ocl err msg past') :=
    fun err msg past' => AllEv_check_ocl _ err msg past' (fun _ => trivial) (fun _ => trivial)
  have hsx := fun past' => send_axis_all (count_ok p ri) mpi istep ri.rank .flux_i
    (p.nang * p.ng * ri.ny * ri.nz) ri.xdown ri.xup
    "Sending to downward x neighbour" "Sending to upward x neighbour" past'
    (fun _ _ => rfl) (fun _ => trivial) (fun _ => trivial)
  have hsy := fun past' => send_axis_all (count_ok p ri) mpi jstep ri.rank .flux_j
    (p.nang * p.ng * ri.nx * ri.nz) ri.ydown ri.yup
    "Sending to downward y neighbour" "Sending to upward y neighbour" past'
    (fun _ _ => rfl) (fun _ => trivial) (fun _ => trivial)
  have hsz := fun past' => send_axis_all (count_ok p ri) mpi kstep ri.rank .flux_k
    (p.nang * p.ng * ri.nx * ri.ny) ri.zdown ri.zup
    "Sending to downward z neighbour" "Sending to upward z neighbour" past'
    (fun _ _ => rfl) (fun _ => trivial) (fun _ => trivial)
  exact AllEv_bind _ _ _ _ (hcl _ _) fun _ _ => AllEv_bind _ _ _ _ (hck _ _ _) fun _ _ =>
    AllEv_bind _ _ _ _ (hcl _ _) fun _ _ => AllEv_bind _ _ _ _ (hck _ _ _) fun _ _ =>
    AllEv_bind _ _ _ _ (hcl _ _) fun _ _ => AllEv_bind _ _ _ _ (hck _ _ _) fun _ _ =>
    AllEv_bind _ _ _ _ (hsx _) fun _ _ => AllEv_bind _ _ _ _ (hsy _) fun _ _ => hsz _

theorem c_int_of_fits (v : Int) (h0 : 0 ≤ v) (h1 : v < 2147483648) : c_int v = v := by
  unfold c_int
  omega

theorem rankinfo_wide_100_is_setup :
    (setup_comms (mpi_at (row_major problem_wide) (1, 0, 0)) problem_wide rankinfo_blank
      []).outcome = .returned rankinfo_wide_100 := by
  decide

/-- C5, the claim refuted: with `nang = ng = 65536` and `ny_r = nz_r = 1` the
product `nang * ng * ny_r * nz_r` is `2^32`, which no `int count` can hold; the
receive on the x axis of the rank at (1,0,0), its first event, is made with
count 0. -/
theorem recv_count_differs :
    problem_wide.nang * problem_wide.ng * rankinfo_wide_100.ny * rankinfo_wide_100.nz =
      4294967296 ∧
    (recv_boundaries (mpi_at (row_major problem_wide) (1, 0, 0)) cl_ok 0 1 1 1
        problem_wide rankinfo_wide_100 []).trace.head? =
      some (.mpi (.Recv .flux_i 0 0) MPI_SUCCESS) := by
  decide

/-- C5 as amended: whatever the libraries answer and whatever came before,
every `MPI_Recv` event of `recv_boundaries` and every `MPI_Send` event of
`send_boundaries` on the edge array of axis `a` carries, as its `int` count,
`nang * ng` times the product of the two local extents other than `a`
converted to `int`, which is that product whenever it lies in `[0, 2^31)`;
hence a send on one rank and a receive on a rank with the same local extents,
on the same axis, carry the same count.  When the library calls succeed and
the steps are `-1` or `+1`, the send to a downstream neighbour other than the
rank itself and the receive on an upstream face that is not external are
made, with that count.  With `nang = 8`, `ng = 2`, `ny_r = nz_r = 4` the
x-axis count is 256. -/
theorem edge_count_contract (mpi : MPI) (cl : CL) (octant istep jstep kstep : Int)
    (p : problem) (ri : rankinfo) (past : List Event) :
    (∀ b n src code,
      Event.mpi (.Recv b n src) code ∈
          (recv_boundaries mpi cl octant istep jstep kstep p ri past).trace →
        n = c_int (edge_count p ri b)) ∧
    (∀ b n dst code,
      Event.mpi (.Send b n dst) code ∈
          (send_boundaries mpi cl octant istep jstep kstep p ri past).trace →
        n = c_int (edge_count p ri b)) ∧
    edge_count p ri .flux_i = p.nang * p.ng * (ri.ny * ri.nz) ∧
    edge_count p ri .flux_j = p.nang * p.ng * (ri.nx * ri.nz) ∧
    edge_count p ri .flux_k = p.nang * p.ng * (ri.nx * ri.ny) ∧
    (∀ b, 0 ≤ edge_count p ri b → edge_count p ri b < 2147483648 →
      c_int (edge_count p ri b) = edge_count p ri b) ∧
    (∀ (mpi' : MPI) (cl' : CL) (octant' istep' jstep' kstep' : Int) (ri' : rankinfo)
      (past' : List Event),
      ri'.nx = ri.nx → ri'.ny = ri.ny → ri'.nz = ri.nz →
      ∀ b n m dst src code code',
        Event.mpi (.Send b n dst) code ∈
          (send_boundaries mpi cl octant istep jstep kstep p ri past).trace →
        Event.mpi (.Recv b m src) code' ∈
          (recv_boundaries mpi' cl' octant' istep' jstep' kstep' p ri' past').trace →
        n = m) ∧
    ((∀ past c, mpi.ret past c = MPI_SUCCESS) → (∀ past c, cl.ret past c = CL_SUCCESS) →
      (istep = -1 ∨ istep = 1) → (jstep = -1 ∨ jstep = 1) → (kstep = -1 ∨ kstep = 1) →
      ((if istep = -1 then ri.xdown else ri.xup) ≠ ri.rank →
        Event.mpi (.Send .flux_i (c_int (edge_count p ri .flux_i))
          (if istep = -1 then ri.xdown else ri.xup)) MPI_SUCCESS ∈
          (send_boundaries mpi cl octant istep jstep kstep p ri past).trace) ∧
      ((if jstep = -1 then ri.ydown else ri.yup) ≠ ri.rank →
        Event.mpi (.Send .flux_j (c_int (edge_count p ri .flux_j))
          (if jstep = -1 then ri.ydown else ri.yup)) MPI_SUCCESS ∈
          (send_boundaries mpi cl octant istep jstep kstep p ri past).trace) ∧
      ((if kstep = -1 then ri.zdown else ri.zup) ≠ ri.rank →
        Event.mpi (.Send .flux_k (c_int (edge_count p ri .flux_k))
          (if kstep = -1 then ri.zdown else ri.zup)) MPI_SUCCESS ∈
          (send_boundaries mpi cl octant istep jstep kstep p ri past).trace) ∧
      (¬((istep = -1 ∧ ri.iub = p.nx) ∨ (istep = 1 ∧ ri.ilb = 0)) →
        Event.mpi (.Recv .flux_i (c_int (edge_count p ri .flux_i))
          (if istep = -1 then ri.xup else ri.xdown)) MPI_SUCCESS ∈
          (recv_boundaries mpi cl octant istep jstep kstep p ri past).trace) ∧
      (¬((jstep = -1 ∧ ri.jub = p.ny) ∨ (jstep = 1 ∧ ri.jlb = 0)) →
        Event.mpi (.Recv .flux_j (c_int (edge_count p ri .flux_j))
          (if jstep = -1 then ri.yup else ri.ydown)) MPI_SUCCESS ∈
          (recv_boundaries mpi cl octant istep jstep kstep p ri past).trace) ∧
      (¬((kstep = -1 ∧ ri.kub = p.nz) ∨ (kstep = 1 ∧ ri.klb = 0)) →
        Event.mpi (.Recv .flux_k (c_int (edge_count p ri .flux_k))
          (if kstep = -1 then ri.zup else ri.zdown)) MPI_SUCCESS ∈
          (recv_boundaries mpi cl octant istep jstep kstep p ri past).trace)) ∧
    (p.nang = 8 → p.ng = 2 → ri.ny = 4 → ri.nz = 4 →
      edge_count p ri .flux_i = 256 ∧ c_int (edge_count p ri .flux_i) = 256) := by
  have hrecv : ∀ (mpi : MPI) (cl : CL) (octant istep jstep kstep : Int) (ri : rankinfo)
      (past : List Event) b n src code,
      Event.mpi (.Recv b n src) code ∈
          (recv_boundaries mpi cl octant istep jstep kstep p ri past).trace →
        n = c_int (edge_count p ri b) :=
    fun mpi cl octant istep jstep kstep ri past b n src code h =>
      recv_boundaries_count mpi cl octant istep jstep kstep p ri past _ h
  have hsend : ∀ b n dst code,
      Event.mpi (.Send b n dst) code ∈
          (send_boundaries mpi cl octant istep jstep kstep p ri past).trace →
        n = c_int (edge_count p ri b) :=
    fun b n dst code h => send_boundaries_count mpi cl octant istep jstep kstep p ri past _ h
  refine ⟨hrecv mpi cl octant istep jstep kstep ri past, hsend, ?_, ?_, ?_, ?_, ?_, ?_, ?_⟩
  · simp [edge_count, mul_assoc]
  · simp [edge_count, mul_assoc]
  · simp [edge_count, mul_assoc]
  · intro b h0 h1
    exact c_int_of_fits _ h0 h1
  · intro mpi' cl' octant' istep' jstep' kstep' ri' past' hx hy hz b n m dst src code code'
      hs hr
    rw [hsend b n dst code hs,
      hrecv mpi' cl' octant' istep' jstep' kstep' ri' past' b m src code' hr]
    cases b <;> simp [edge_count, hx, hy, hz]
  · intro hmpi hcl hi hj hk
    rw [send_boundaries_success mpi cl octant istep jstep kstep p ri hmpi hcl past,
      recv_boundaries_success mpi cl octant istep jstep kstep p ri hmpi hcl past]
    refine ⟨?_, ?_, ?_, ?_, ?_, ?_⟩
    · intro h
      rcases hi with rfl | rfl
      · simp only [if_true] at h
        simp [edge_count, h]
      · simp only [show ¬((1 : Int) = -1) by decide, if_false] at h
        simp [edge_count, h]
    · intro h
      rcases hj with rfl | rfl
      · simp only [if_true] at h
        simp [edge_count, h]
      · simp only [show ¬((1 : Int) = -1) by decide, if_false] at h
        simp [edge_count, h]
    · intro h
      rcases hk with rfl | rfl
      · simp only [if_true] at h
        simp [edge_count, h]
      · simp only [show ¬((1 : Int) = -1) by decide, if_false] at h
        simp [edge_count, h]
    · intro h
      simp [edge_count, h]
    · intro h
      simp [edge_count, h]
    · intro h
      simp [edge_count, h]
  · intro h1 h2 h3 h4
    have : edge_count p ri .flux_i = 256 := by simp [edge_count, h1, h2, h3, h4]
    refine ⟨this, ?_⟩
    rw [this]
    decide

theorem edge_count_contract_witness :
    Event.mpi (.Send .flux_i 256 4) MPI_SUCCESS ∈
      (send_boundaries (mpi_at (row_major problem_s3) (0, 0, 0)) cl_ok 0 1 1 1
        problem_s3 rankinfo_s3_000 []).trace ∧
    (256 : Int) = c_int (edge_count problem_s3 rankinfo_s3_000 .flux_i) ∧
    Event.mpi (.Recv .flux_i (c_int (edge_count problem_s3 rankinfo_s3_100 .flux_i)) 0)
        MPI_SUCCESS ∈
      (recv_boundaries (mpi_at (row_major problem_s3) (1, 0, 0)) cl_ok 0 1 1 1
        problem_s3 rankinfo_s3_100 []).trace :=
  ⟨((edge_count_contract (mpi_at (row_major problem_s3) (0, 0, 0)) cl_ok 0 1 1 1
      problem_s3 rankinfo_s3_000 []).2.2.2.2.2.2.2.1 (fun _ _ => rfl) (fun _ _ => rfl)
      (by decide) (by decide) (by decide)).1 (by decide),
   (edge_count_contract (mpi_at (row_major problem_s3) (0, 0, 0)) cl_ok 0 1 1 1
      problem_s3 rankinfo_s3_000 []).2.1 .flux_i 256 4 MPI_SUCCESS (by decide),
   ((edge_count_contract (mpi_at (row_major problem_s3) (1, 0, 0)) cl_ok 0 1 1 1
      problem_s3 rankinfo_s3_100 []).2.2.2.2.2.2.2.1 (fun _ _ => rfl) (fun _ _ => rfl)
      (by decide) (by decide) (by decide)).2.2.2.1 (by decide)⟩

theorem ExitsOnMpi_mpi_check {α : Type} (mpi : MPI) (c : MpiCall) (msg : String)
    (k : Unit → Run α) (past : List Event) (h : ∀ past', ExitsOnMpi (k () past')) :
    ExitsOnMpi (Run.bind (mpi_call mpi c) (fun e => Run.bind (check_mpi e msg) k) past) := by
  by_cases hc : mpi.ret past c = MPI_SUCCESS
  · intro s hs
    simp only [Run.bind, Run.pure, mpi_call, check_mpi, hc, ne_eq, not_true_eq_false, if_false,
      pure_def, List.nil_append, List.singleton_append, List.append_nil] at hs ⊢
    obtain ⟨c', code, h1, h2, h3, h4⟩ := h _ s hs
    exact ⟨c', code, h1, List.mem_cons_of_mem _ h2, List.mem_cons_of_mem _ h3, h4⟩
  · intro s hs
    simp only [Run.bind, mpi_call, check_mpi, hc, ne_eq, not_false_eq_true, if_true, bind_def,
      fprintf_stderr, emit, exit, List.singleton_append, Outcome.exited.injEq] at hs ⊢
    subst hs
    exact ⟨c, mpi.ret past c, hc, by simp, by simp, rfl⟩

theorem ExitsOnMpi_pure {α : Type} (a : α) (past : List Event) :
    ExitsOnMpi (Run.pure a past) := by
  intro s hs
  simp [Run.pure] at hs

theorem calculate_neighbours_exits (mpi : MPI) (p : problem) (ri : rankinfo)
    (past : List Event) : ExitsOnMpi (calculate_neighbours mpi p ri past) := by
  unfold calculate_neighbours
  simp only [bind_def, pure_def]
  exact ExitsOnMpi_mpi_check _ _ _ _ _ fun _ => ExitsOnMpi_mpi_check _ _ _ _ _ fun _ =>
    ExitsOnMpi_mpi_check _ _ _ _ _ fun _ => ExitsOnMpi_mpi_check _ _ _ _ _ fun _ =>
    ExitsOnMpi_mpi_check _ _ _ _ _ fun _ => ExitsOnMpi_mpi_check _ _ _ _ _ fun _ =>
    ExitsOnMpi_pure _ _

theorem setup_comms_exits (mpi : MPI) (p : problem) (ri : rankinfo) (past : List Event) :
    ExitsOnMpi (setup_comms mpi p ri past) := by
  unfold setup_comms
  simp only [bind_def, pure_def]
  exact ExitsOnMpi_mpi_check _ _ _ _ _ fun _ => ExitsOnMpi_mpi_check _ _ _ _ _ fun _ =>
    ExitsOnMpi_mpi_check _ _ _ _ _ fun _ => calculate_neighbours_exits _ _ _ _

/-- C6, the claim refuted: with `nx = 5` and `npex = 2`, which is not an exact
division, `setup_comms` on the rank at (0,0,0) returns a `struct rankinfo`
with `nx_r = 2` and bounds `[0, 2)`; it does not fail. -/
theorem setup_comms_accepts_indivisible :
    Int.tmod problem_s6.nx problem_s6.npex ≠ 0 ∧
    (setup_comms (mpi_at (row_major problem_s6) (0, 0, 0)) problem_s6 rankinfo_blank
      []).outcome =
      .returned
        { rank := 0, ranks := (0, 0, 0), nx := 2, ny := 4, nz := 4,
          ilb := 0, iub := 2, jlb := 0, jub := 4, klb := 0, kub := 4,
          xup := 1, xdown := 0, yup := 0, ydown := 0, zup := 0, zdown := 0 } := by
  decide

/-- C6 as amended: `setup_comms` does not validate the decomposition.  For
non-zero `npex`, `npey`, `npez`, when the MPI calls succeed it returns,
whatever came before, a `struct rankinfo` with `nx_r = nx / npex` truncated
towards zero (likewise y, z) and bounds `[rx * nx_r, (rx + 1) * nx_r)`, whether
or not the division is exact; and whatever the MPI library answers, it ends in
`exit` only after one of its MPI calls got a non-success code, `exit` being
called with that code. -/
theorem setup_comms_no_validation (mpi : MPI) (p : problem) (ri0 : rankinfo)
    (past : List Event)
    (_hx : p.npex ≠ 0) (_hy : p.npey ≠ 0) (_hz : p.npez ≠ 0) :
    ((∀ past c, mpi.ret past c = MPI_SUCCESS) →
      ∃ ri, (setup_comms mpi p ri0 past).outcome = .returned ri ∧
        ri.nx = Int.tdiv p.nx p.npex ∧ ri.ny = Int.tdiv p.ny p.npey ∧
        ri.nz = Int.tdiv p.nz p.npez ∧
        ri.ilb = ri.ranks.1 * ri.nx ∧ ri.iub = (ri.ranks.1 + 1) * ri.nx ∧
        ri.jlb = ri.ranks.2.1 * ri.ny ∧ ri.jub = (ri.ranks.2.1 + 1) * ri.ny ∧
        ri.klb = ri.ranks.2.2 * ri.nz ∧ ri.kub = (ri.ranks.2.2 + 1) * ri.nz) ∧
    (∀ s, (setup_comms mpi p ri0 past).outcome = .exited s →
      ∃ c code, code ≠ MPI_SUCCESS ∧
        Event.mpi c code ∈ (setup_comms mpi p ri0 past).trace ∧
        Event.exit code ∈ (setup_comms mpi p ri0 past).trace ∧
        s = exit_status code) := by
  refine ⟨fun hmpi => ?_, setup_comms_exits mpi p ri0 past⟩
  exact ⟨_, setup_comms_success mpi p ri0 hmpi past, rfl, rfl, rfl, rfl, rfl, rfl, rfl, rfl, rfl⟩

theorem setup_comms_no_validation_witness :
    problem_s6.npex ≠ 0 ∧ problem_s6.npey ≠ 0 ∧ problem_s6.npez ≠ 0 ∧
    ∃ ri, (setup_comms (mpi_at (row_major problem_s6) (1, 0, 0)) problem_s6
        rankinfo_blank []).outcome = .returned ri ∧
      ri.nx = 2 ∧ ri.ilb = 2 ∧ ri.iub = 4 := by
  obtain ⟨ri, hrun, hnx, -, -, hilb, hiub, -⟩ :=
    (setup_comms_no_validation (mpi_at (row_major problem_s6) (1, 0, 0)) problem_s6
      rankinfo_blank [] (by decide) (by decide) (by decide)).1 (fun _ _ => rfl)
  have hr : ri.ranks = (1, 0, 0) := by
    have h2 : (setup_comms (mpi_at (row_major problem_s6) (1, 0, 0)) problem_s6
        rankinfo_blank []).outcome = .returned
        { rank := 1, ranks := (1, 0, 0), nx := 2, ny := 4, nz := 4,
          ilb := 2, iub := 4, jlb := 0, jub := 4, klb := 0, kub := 4,
          xup := 1, xdown := 0, yup := 1, ydown := 1, zup := 1, zdown := 1 } := by decide
    rw [h2] at hrun
    injection hrun with hrun
    rw [← hrun]
  have hnx2 : ri.nx = 2 := by rw [hnx]; decide
  refine ⟨by decide, by decide, by decide, ri, hrun, hnx2, ?_, ?_⟩
  · rw [hilb, hr, hnx2]; decide
  · rw [hiub, hr, hnx2]; decide

theorem size_t_cast (v : Int) : ((size_t v : Nat) : Int) = v % (SIZE_MODULUS : Int) := by
  unfold size_t
  exact Int.toNat_of_nonneg (Int.emod_nonneg _ (by unfold SIZE_MODULUS; decide))

theorem size_t_congr (u v : Int) (h : u % (SIZE_MODULUS : Int) = v % (SIZE_MODULUS : Int)) :
    size_t u = size_t v := by
  unfold size_t
  rw [h]

theorem size_t_mul_cast (a : Nat) (b : Int) :
    ((size_t_mul a b : Nat) : Int) = ((a : Int) * b) % (SIZE_MODULUS : Int) := by
  unfold size_t_mul
  rw [Int.natCast_mod, Int.natCast_mul, size_t_cast, Int.mul_emod, Int.emod_emod_of_dvd _ (dvd_refl _),
    ← Int.mul_emod]

theorem size_t_prod_eq (bs : List Int) : ∀ (a : Nat), a < SIZE_MODULUS →
    size_t_prod a bs = size_t ((a : Int) * bs.prod) := by
  induction bs with
  | nil =>
    intro a ha
    simp only [size_t_prod, List.foldl_nil, List.prod_nil, mul_one]
    unfold size_t
    rw [Int.emod_eq_of_lt (by omega) (by exact_mod_cast ha)]
    simp
  | cons b bs ih =>
    intro a _
    have hlt : size_t_mul a b < SIZE_MODULUS := by
      unfold size_t_mul
      exact Nat.mod_lt _ (by unfold SIZE_MODULUS; decide)
    have := ih (size_t_mul a b) hlt
    simp only [size_t_prod, List.foldl_cons, List.prod_cons] at this ⊢
    rw [this]
    apply size_t_congr
    rw [size_t_mul_cast, Int.mul_emod, Int.emod_emod_of_dvd _ (dvd_refl _), ← Int.mul_emod,
      mul_assoc]

theorem size_t_of_fits (v : Int) (h0 : 0 ≤ v) (h1 : v < (SIZE_MODULUS : Int)) :
    ((size_t v : Nat) : Int) = v := by
  rw [size_t_cast, Int.emod_eq_of_lt h0 h1]

theorem rankinfo_huge_is_setup :
    (setup_comms (mpi_at (row_major problem_huge) (0, 0, 0)) problem_huge rankinfo_blank
      []).outcome = .returned rankinfo_huge := by
  decide

/-- C7, the claim refuted.  First, with `nx_r = ny_r = nz_r = 2^20`, `nang = 1`,
`ng = 2` the shape of `angular_flux_in` has `2^64` doubles and the request made
is `malloc(0)`.  Second, with `cmom = 2` and a `malloc` that fails,
`scalar_flux_moments` is the null pointer although `cmom` is not 1. -/
theorem allocate_memory_size_differs :
    problem_huge.nang * problem_huge.ng * rankinfo_huge.nx * rankinfo_huge.ny *
      rankinfo_huge.nz * 8 = 18446744073709551616 ∧
    (allocate_memory libc_fresh problem_huge rankinfo_huge memory_blank []).trace.head? =
      some (.malloc 0 (.addr 4096)) ∧
    ({ problem_s3 with cmom := 2 } : problem).cmom ≠ 1 ∧
    (allocate_memory libc_exhausted { problem_s3 with cmom := 2 } rankinfo_s3_000 memory_blank
      []).outcome = .returned memory_blank := by
  decide

theorem malloc_bind {α : Type} (libc : Libc) (size : Nat) (k : Ptr → Run α)
    (past : List Event) :
    Run.bind (malloc libc size) k past =
      ⟨Event.malloc size (libc.malloc past size) ::
          (k (libc.malloc past size)
            (past ++ [Event.malloc size (libc.malloc past size)])).trace,
        (k (libc.malloc past size)
          (past ++ [Event.malloc size (libc.malloc past size)])).outcome⟩ := by
  simp [Run.bind, malloc]

/-- C7 as amended: whatever `malloc` answers and whatever came before,
`allocate_memory` returns after one `malloc` call per array, in the order of
the fields, each field holding the unchecked result of its call, which may be
the null pointer.  The size of each call is `sizeof(double)` times the product
of the documented shape, reduced modulo `2^64` as `size_t` arithmetic does:
`nang*ng*nx_r*ny_r*nz_r*8` doubles for `angular_flux_in` and
`angular_flux_out`; `nang*ng*ny_r*nz_r`, `nang*ng*nx_r*nz_r`,
`nang*ng*nx_r*ny_r` for `flux_i`, `flux_j`, `flux_k`; `ng*nx_r*ny_r*nz_r` for
the three scalar fluxes; `nang` for `mu`, `eta`, `xi`; `ng` for
`mat_cross_section`.  For a non-negative number of doubles whose byte count
is below `2^64` the size is exactly that byte count.  For
`scalar_flux_moments` no call is made and the field is the null pointer
exactly when `cmom = 1`; otherwise one call of `(cmom-1)*ng*nx_r*ny_r*nz_r`
doubles is made. -/
theorem allocate_memory_contract (libc : Libc) (p : problem) (ri : rankinfo) (m : memory)
    (past : List Event) :
    (∃ m', allocate_memory libc p ri m past =
      ⟨[.malloc (size_t (sizeof_double * (p.nang * p.ng * ri.nx * ri.ny * ri.nz * 8)))
          m'.angular_flux_in,
        .malloc (size_t (sizeof_double * (p.nang * p.ng * ri.nx * ri.ny * ri.nz * 8)))
          m'.angular_flux_out,
        .malloc (size_t (sizeof_double * (p.nang * p.ng * ri.ny * ri.nz))) m'.flux_i,
        .malloc (size_t (sizeof_double * (p.nang * p.ng * ri.nx * ri.nz))) m'.flux_j,
        .malloc (size_t (sizeof_double * (p.nang * p.ng * ri.nx * ri.ny))) m'.flux_k,
        .malloc (size_t (sizeof_double * (p.ng * ri.nx * ri.ny * ri.nz))) m'.scalar_flux,
        .malloc (size_t (sizeof_double * (p.ng * ri.nx * ri.ny * ri.nz)))
          m'.old_inner_scalar_flux,
        .malloc (size_t (sizeof_double * (p.ng * ri.nx * ri.ny * ri.nz)))
          m'.old_outer_scalar_flux] ++
        (if p.cmom = 1 then []
         else [.malloc (size_t (sizeof_double * ((p.cmom - 1) * p.ng * ri.nx * ri.ny * ri.nz)))
            m'.scalar_flux_moments]) ++
        [.malloc (size_t (sizeof_double * p.nang)) m'.mu,
         .malloc (size_t (sizeof_double * p.nang)) m'.eta,
         .malloc (size_t (sizeof_double * p.nang)) m'.xi,
         .malloc (size_t (sizeof_double * p.ng)) m'.mat_cross_section],
       .returned m'⟩ ∧
      (p.cmom = 1 → m'.scalar_flux_moments = .NULL)) ∧
    ((allocate_memory libc p ri m past).trace.length = 12 ↔ p.cmom = 1) ∧
    (∀ d : Int, 0 ≤ d → sizeof_double * d < SIZE_MODULUS →
      ((size_t (sizeof_double * d) : Nat) : Int) = sizeof_double * d) := by
  have h8 : sizeof_double < SIZE_MODULUS := by decide
  have s1 : size_t_prod sizeof_double [ri.nx, ri.ny, ri.nz, p.nang, 8, p.ng] =
      size_t (sizeof_double * (p.nang * p.ng * ri.nx * ri.ny * ri.nz * 8)) := by
    rw [size_t_prod_eq _ _ h8]
    congr 1
    simp only [List.prod_cons, List.prod_nil]
    ring
  have s2 : size_t_prod sizeof_double [p.nang, p.ng, ri.ny, ri.nz] =
      size_t (sizeof_double * (p.nang * p.ng * ri.ny * ri.nz)) := by
    rw [size_t_prod_eq _ _ h8]
    congr 1
    simp only [List.prod_cons, List.prod_nil]
    ring
  have s3 : size_t_prod sizeof_double [p.nang, p.ng, ri.nx, ri.nz] =
      size_t (sizeof_double * (p.nang * p.ng * ri.nx * ri.nz)) := by
    rw [size_t_prod_eq _ _ h8]
    congr 1
    simp only [List.prod_cons, List.prod_nil]
    ring
  have s4 : size_t_prod sizeof_double [p.nang, p.ng, ri.nx, ri.ny] =
      size_t (sizeof_double * (p.nang * p.ng * ri.nx * ri.ny)) := by
    rw [size_t_prod_eq _ _ h8]
    congr 1
    simp only [List.prod_cons, List.prod_nil]
    ring
  have s5 : size_t_prod sizeof_double [ri.nx, ri.ny, ri.nz, p.ng] =
      size_t (sizeof_double * (p.ng * ri.nx * ri.ny * ri.nz)) := by
    rw [size_t_prod_eq _ _ h8]
    congr 1
    simp only [List.prod_cons, List.prod_nil]
    ring
  have s6 : size_t_prod sizeof_double [p.cmom - 1, p.ng, ri.nx, ri.ny, ri.nz] =
      size_t (sizeof_double * ((p.cmom - 1) * p.ng * ri.nx * ri.ny * ri.nz)) := by
    rw [size_t_prod_eq _ _ h8]
    congr 1
    simp only [List.prod_cons, List.prod_nil]
    ring
  have s7 : size_t_prod sizeof_double [p.nang] = size_t (sizeof_double * p.nang) := by
    rw [size_t_prod_eq _ _ h8]
    congr 1
    simp only [List.prod_cons, List.prod_nil]
    ring
  have s8 : size_t_prod sizeof_double [p.ng] = size_t (sizeof_double * p.ng) := by
    rw [size_t_prod_eq _ _ h8]
    congr 1
    simp only [List.prod_cons, List.prod_nil]
    ring
  have hfit : ∀ d : Int, 0 ≤ d → sizeof_double * d < SIZE_MODULUS →
      ((size_t (sizeof_double * d) : Nat) : Int) = sizeof_double * d := by
    intro d h0 h1
    exact size_t_of_fits _ (mul_nonneg (by decide) h0) h1
  by_cases hc : p.cmom = 1
  · have hc0 : p.cmom - 1 = 0 := by omega
    refine ⟨?hex, ?hlen, hfit⟩
    case hex =>
      apply Exists.intro
      apply And.intro
      · unfold allocate_memory
        simp only [bind_def, pure_def, s1, s2, s3, s4, s5, s7, s8, if_pos hc0, if_pos hc,
          Run.pure_bind, malloc_bind, Run.pure, List.append_nil]
        apply (Result.mk.injEq _ _ _ _).mpr
        apply And.intro
        case right => exact rfl
        case left => exact rfl
      · intro _
        exact rfl
    case hlen =>
      unfold allocate_memory
      simp only [bind_def, pure_def, if_pos hc0, Run.pure_bind, malloc_bind, Run.pure]
      simp [hc]
  · have hc0 : ¬(p.cmom - 1 = 0) := by omega
    refine ⟨?hex, ?hlen, hfit⟩
    case hex =>
      apply Exists.intro
      apply And.intro
      · unfold allocate_memory
        simp only [bind_def, pure_def, s1, s2, s3, s4, s5, s6, s7, s8, if_neg hc0, if_neg hc,
          Run.pure_bind, malloc_bind, Run.pure]
        apply (Result.mk.injEq _ _ _ _).mpr
        apply And.intro
        case right => exact rfl
        case left => exact rfl
      · intro h
        exact absurd h hc
    case hlen =>
      unfold allocate_memory
      simp only [bind_def, pure_def, if_neg hc0, Run.pure_bind, malloc_bind, Run.pure]
      simp [hc]

theorem allocate_memory_s3 :
    allocate_memory libc_fresh { problem_s3 with cmom := 4 } rankinfo_s3_000 memory_blank [] =
      ⟨[.malloc 65536 (.addr 4096), .malloc 65536 (.addr 8192), .malloc 2048 (.addr 12288),
        .malloc 2048 (.addr 16384), .malloc 2048 (.addr 20480), .malloc 1024 (.addr 24576),
        .malloc 1024 (.addr 28672), .malloc 1024 (.addr 32768), .malloc 3072 (.addr 36864),
        .malloc 64 (.addr 40960), .malloc 64 (.addr 45056), .malloc 64 (.addr 49152),
        .malloc 16 (.addr 53248)],
       .returned
        { angular_flux_in := .addr 4096, angular_flux_out := .addr 8192,
          flux_i := .addr 12288, flux_j := .addr 16384, flux_k := .addr 20480,
          scalar_flux := .addr 24576, old_inner_scalar_flux := .addr 28672,
          old_outer_scalar_flux := .addr 32768, scalar_flux_moments := .addr 36864,
          mu := .addr 40960, eta := .addr 45056, xi := .addr 49152,
          mat_cross_section := .addr 53248 }⟩ := by
  decide

theorem allocate_memory_contract_witness :
    (allocate_memory libc_fresh problem_s3 rankinfo_s3_000 memory_blank []).trace.length = 12 ∧
    ((size_t (sizeof_double * 256) : Nat) : Int) = sizeof_double * 256 :=
  ⟨(allocate_memory_contract libc_fresh problem_s3 rankinfo_s3_000 memory_blank []).2.1.2
      (by decide),
   (allocate_memory_contract libc_fresh problem_s3 rankinfo_s3_000 memory_blank []).2.2 256
      (by decide) (by decide)⟩

theorem mem_recv_part (g : Prop) [Decidable g] (b b' : Edge) (zn cnt : Int) (bytes : Nat)
    (s src : Int) :
    (∃ n code, Event.mpi (.Recv b n src) code ∈
      (if g then [Event.zero_buffer b' zn]
       else [.mpi (.Recv b' cnt s) MPI_SUCCESS,
             .cl (.EnqueueWriteBuffer b' true 0 bytes b') CL_SUCCESS])) ↔
      (b = b' ∧ ¬g ∧ src = s) := by
  by_cases hg : g
  · simp [hg]
  · simp [hg]

theorem mem_send_part (g1 g2 : Prop) [Decidable g1] [Decidable g2] (b b' : Edge)
    (cnt d u dst : Int) :
    (∃ n code, Event.mpi (.Send b n dst) code ∈
      (if g1 then [Event.mpi (.Send b' cnt d) MPI_SUCCESS]
       else if g2 then [Event.mpi (.Send b' cnt u) MPI_SUCCESS]
       else [])) ↔
      (b = b' ∧ ((g1 ∧ dst = d) ∨ (¬g1 ∧ g2 ∧ dst = u))) := by
  by_cases h1 : g1 <;> by_cases h2 : g2 <;> simp [h1, h2]

theorem exists_mem_append3 {α β γ : Type} (P : β → γ → α) (l1 l2 l3 : List α) :
    (∃ n code, P n code ∈ l1 ++ (l2 ++ l3)) ↔
      (∃ n code, P n code ∈ l1) ∨ (∃ n code, P n code ∈ l2) ∨ (∃ n code, P n code ∈ l3) := by
  simp only [List.mem_append]
  constructor
  · rintro ⟨n, code, h | h | h⟩
    · exact Or.inl ⟨n, code, h⟩
    · exact Or.inr (Or.inl ⟨n, code, h⟩)
    · exact Or.inr (Or.inr ⟨n, code, h⟩)
  · rintro (⟨n, code, h⟩ | ⟨n, code, h⟩ | ⟨n, code, h⟩)
    · exact ⟨n, code, Or.inl h⟩
    · exact ⟨n, code, Or.inr (Or.inl h)⟩
    · exact ⟨n, code, Or.inr (Or.inr h)⟩

theorem mem_recv_trace_iff (mpi : MPI) (cl : CL) (octant istep jstep kstep : Int)
    (p : problem) (ri : rankinfo)
    (hmpi : ∀ past c, mpi.ret past c = MPI_SUCCESS) (hcl : ∀ past c, cl.ret past c = CL_SUCCESS)
    (past : List Event) (b : Edge) (src : Int) :
    (∃ n code, Event.mpi (.Recv b n src) code ∈
        (recv_boundaries mpi cl octant istep jstep kstep p ri past).trace) ↔
      (b = .flux_i ∧ ¬((istep = -1 ∧ ri.iub = p.nx) ∨ (istep = 1 ∧ ri.ilb = 0)) ∧
        src = (if istep = -1 then ri.xup else ri.xdown)) ∨
      (b = .flux_j ∧ ¬((jstep = -1 ∧ ri.jub = p.ny) ∨ (jstep = 1 ∧ ri.jlb = 0)) ∧
        src = (if jstep = -1 then ri.yup else ri.ydown)) ∨
      (b = .flux_k ∧ ¬((kstep = -1 ∧ ri.kub = p.nz) ∨ (kstep = 1 ∧ ri.klb = 0)) ∧
        src = (if kstep = -1 then ri.zup else ri.zdown)) := by
  rw [recv_boundaries_success mpi cl octant istep jstep kstep p ri hmpi hcl past]
  simp only [exists_mem_append3 (fun n code => Event.mpi (.Recv b n src) code), mem_recv_part]

theorem mem_send_trace_iff (mpi : MPI) (cl : CL) (octant istep jstep kstep : Int)
    (p : problem) (ri : rankinfo)
    (hmpi : ∀ past c, mpi.ret past c = MPI_SUCCESS) (hcl : ∀ past c, cl.ret past c = CL_SUCCESS)
    (past : List Event) (b : Edge) (dst : Int) :
    (∃ n code, Event.mpi (.Send b n dst) code ∈
        (send_boundaries mpi cl octant istep jstep kstep p ri past).trace) ↔
      (b = .flux_i ∧ ((((istep = -1 ∧ ri.xdown ≠ ri.rank)) ∧ dst = ri.xdown) ∨
        (¬(istep = -1 ∧ ri.xdown ≠ ri.rank) ∧ (istep = 1 ∧ ri.xup ≠ ri.rank) ∧
          dst = ri.xup))) ∨
      (b = .flux_j ∧ ((((jstep = -1 ∧ ri.ydown ≠ ri.rank)) ∧ dst = ri.ydown) ∨
        (¬(jstep = -1 ∧ ri.ydown ≠ ri.rank) ∧ (jstep = 1 ∧ ri.yup ≠ ri.rank) ∧
          dst = ri.yup))) ∨
      (b = .flux_k ∧ ((((kstep = -1 ∧ ri.zdown ≠ ri.rank)) ∧ dst = ri.zdown) ∨
        (¬(kstep = -1 ∧ ri.zdown ≠ ri.rank) ∧ (kstep = 1 ∧ ri.zup ≠ ri.rank) ∧
          dst = ri.zup))) := by
  rw [send_boundaries_success mpi cl octant istep jstep kstep p ri hmpi hcl past]
  rw [show ∀ (a b c : Event) (l : List Event), [a, b, c] ++ l = [a, b, c] ++ (l ++ []) by simp]
  rw [exists_mem_append3 (fun n code => Event.mpi (.Send b n dst) code)]
  simp only [exists_mem_append3 (fun n code => Event.mpi (.Send b n dst) code), mem_send_part]
  simp

theorem geometry_facts (p : problem) (lookup : Int × Int × Int → Int)
    (nx_r ny_r nz_r x y z : Int)
    (hnx : p.nx = p.npex * nx_r) (hny : p.ny = p.npey * ny_r) (hnz : p.nz = p.npez * nz_r)
    (h1x : 1 ≤ nx_r) (h1y : 1 ≤ ny_r) (h1z : 1 ≤ nz_r) (hc : in_grid p (x, y, z)) :
    ∃ ri, setup_geometry lookup p (x, y, z) = some ri ∧
      ri.rank = lookup (x, y, z) ∧
      ri.xup = lookup (min (x + 1) (p.npex - 1), y, z) ∧
      ri.xdown = lookup (max (x - 1) 0, y, z) ∧
      ri.yup = lookup (x, min (y + 1) (p.npey - 1), z) ∧
      ri.ydown = lookup (x, max (y - 1) 0, z) ∧
      ri.zup = lookup (x, y, min (z + 1) (p.npez - 1)) ∧
      ri.zdown = lookup (x, y, max (z - 1) 0) ∧
      (ri.ilb = 0 ↔ x = 0) ∧ (ri.iub = p.nx ↔ x = p.npex - 1) ∧
      (ri.jlb = 0 ↔ y = 0) ∧ (ri.jub = p.ny ↔ y = p.npey - 1) ∧
      (ri.klb = 0 ↔ z = 0) ∧ (ri.kub = p.nz ↔ z = p.npez - 1) := by
  obtain ⟨⟨hx0, hx1⟩, ⟨hy0, hy1⟩, ⟨hz0, hz1⟩⟩ := hc
  simp only at hx0 hx1 hy0 hy1 hz0 hz1
  obtain ⟨ri, hg, hrank, -, ex, ey, ez, h1, h2, h3, h4, h5, h6, n1, n2, n3, n4, n5, n6⟩ :=
    setup_geometry_eq lookup p (x, y, z)
  simp only at h1 h2 h3 h4 h5 h6 n1 n2 n3 n4 n5 n6
  have qx : Int.tdiv p.nx p.npex = nx_r := by
    rw [hnx]; exact Int.mul_tdiv_cancel_left _ (by omega)
  have qy : Int.tdiv p.ny p.npey = ny_r := by
    rw [hny]; exact Int.mul_tdiv_cancel_left _ (by omega)
  have qz : Int.tdiv p.nz p.npez = nz_r := by
    rw [hnz]; exact Int.mul_tdiv_cancel_left _ (by omega)
  rw [qx] at ex
  rw [qy] at ey
  rw [qz] at ez
  rw [ex] at h1 h2
  rw [ey] at h3 h4
  rw [ez] at h5 h6
  have low : ∀ (r n : Int), 1 ≤ n → (r * n = 0 ↔ r = 0) := by
    intro r n hn
    constructor
    · intro h
      rcases mul_eq_zero.mp h with h | h
      · exact h
      · omega
    · intro h
      rw [h, zero_mul]
  have high : ∀ (r npe n : Int), 1 ≤ n → ((r + 1) * n = npe * n ↔ r = npe - 1) := by
    intro r npe n hn
    constructor
    · intro h
      have := mul_right_cancel₀ (by omega : n ≠ 0) h
      omega
    · intro h
      rw [h]
      ring
  refine ⟨ri, hg, hrank, ?_, ?_, ?_, ?_, ?_, ?_, ?_, ?_, ?_, ?_, ?_, ?_⟩
  · rw [n1]; congr 2; split_ifs <;> omega
  · rw [n2]; congr 2; split_ifs <;> omega
  · rw [n3]; congr 3; split_ifs <;> omega
  · rw [n4]; congr 3; split_ifs <;> omega
  · rw [n5]; congr 3; split_ifs <;> omega
  · rw [n6]; congr 3; split_ifs <;> omega
  · rw [h1]; exact low _ _ h1x
  · rw [h2, hnx]; exact high _ _ _ h1x
  · rw [h3]; exact low _ _ h1y
  · rw [h4, hny]; exact high _ _ _ h1y
  · rw [h5]; exact low _ _ h1z
  · rw [h6, hnz]; exact high _ _ _ h1z

/-- C10: for a Problem with exact decomposition and non-empty subdomains
(`nx = npex * nx_r` with `nx_r >= 1`, likewise y, z), a coordinate-to-rank
lookup injective on the rank grid, and the geometry that `setup_comms` with
`calculate_neighbours` leaves on the rank at `(x, y, z)`: on every axis the
geometric test of `recv_boundaries` (`ilb = 0`, resp. `iub = nx`) holds
exactly when the upstream neighbour (`xdown`, resp. `xup`) is the rank itself,
which is the test by which `send_boundaries` suppresses a send; for steps in
{-1, +1}, whatever came before, `recv_boundaries` posts no receive whose source
is the rank itself;
and for every rank `(x', y', z')` of the grid, on every edge array, the first
rank sends to the second in `send_boundaries` exactly when the second posts a
receive from the first in `recv_boundaries` for the same steps. -/
theorem halo_exchange_matched (p : problem) (lookup : Int × Int × Int → Int)
    (nx_r ny_r nz_r x y z : Int)
    (hnx : p.nx = p.npex * nx_r) (hny : p.ny = p.npey * ny_r) (hnz : p.nz = p.npez * nz_r)
    (h1x : 1 ≤ nx_r) (h1y : 1 ≤ ny_r) (h1z : 1 ≤ nz_r)
    (hinj : ∀ c c', in_grid p c → in_grid p c' → lookup c = lookup c' → c = c')
    (hc : in_grid p (x, y, z)) :
    ∃ ri, setup_geometry lookup p (x, y, z) = some ri ∧
      (ri.ilb = 0 ↔ ri.xdown = ri.rank) ∧ (ri.iub = p.nx ↔ ri.xup = ri.rank) ∧
      (ri.jlb = 0 ↔ ri.ydown = ri.rank) ∧ (ri.jub = p.ny ↔ ri.yup = ri.rank) ∧
      (ri.klb = 0 ↔ ri.zdown = ri.rank) ∧ (ri.kub = p.nz ↔ ri.zup = ri.rank) ∧
      (∀ octant istep jstep kstep : Int,
        (istep = -1 ∨ istep = 1) → (jstep = -1 ∨ jstep = 1) → (kstep = -1 ∨ kstep = 1) →
        ∀ past b n code, Event.mpi (.Recv b n ri.rank) code ∉
          (recv_boundaries (mpi_at lookup (x, y, z)) cl_ok octant istep jstep kstep p ri
            past).trace) ∧
      (∀ x' y' z', in_grid p (x', y', z') →
        ∃ ri', setup_geometry lookup p (x', y', z') = some ri' ∧
          ∀ octant istep jstep kstep : Int,
            (istep = -1 ∨ istep = 1) → (jstep = -1 ∨ jstep = 1) → (kstep = -1 ∨ kstep = 1) →
            ∀ past past' b,
              (∃ n code, Event.mpi (.Send b n ri'.rank) code ∈
                (send_boundaries (mpi_at lookup (x, y, z)) cl_ok octant istep jstep kstep
                  p ri past).trace) ↔
              (∃ n code, Event.mpi (.Recv b n ri.rank) code ∈
                (recv_boundaries (mpi_at lookup (x', y', z')) cl_ok octant istep jstep kstep
                  p ri' past').trace)) := by
  obtain ⟨ri, hg, hrank, nxu, nxd, nyu, nyd, nzu, nzd, bxl, bxu, byl, byu, bzl, bzu⟩ :=
    geometry_facts p lookup nx_r ny_r nz_r x y z hnx hny hnz h1x h1y h1z hc
  have hgrid := hc
  obtain ⟨⟨hx0, hx1⟩, ⟨hy0, hy1⟩, ⟨hz0, hz1⟩⟩ := hc
  simp only at hx0 hx1 hy0 hy1 hz0 hz1
  have leq : ∀ d e, in_grid p d → in_grid p e → (lookup d = lookup e ↔ d = e) :=
    fun d e hd he => ⟨hinj d e hd he, fun h => by rw [h]⟩
  have gxu : in_grid p (min (x + 1) (p.npex - 1), y, z) :=
    ⟨⟨le_min (by omega) (by omega), min_lt_of_right_lt (by omega)⟩, ⟨hy0, hy1⟩, ⟨hz0, hz1⟩⟩
  have gxd : in_grid p (max (x - 1) 0, y, z) :=
    ⟨⟨le_max_right _ _, max_lt (by omega) (by omega)⟩, ⟨hy0, hy1⟩, ⟨hz0, hz1⟩⟩
  have gyu : in_grid p (x, min (y + 1) (p.npey - 1), z) :=
    ⟨⟨hx0, hx1⟩, ⟨le_min (by omega) (by omega), min_lt_of_right_lt (by omega)⟩, ⟨hz0, hz1⟩⟩
  have gyd : in_grid p (x, max (y - 1) 0, z) :=
    ⟨⟨hx0, hx1⟩, ⟨le_max_right _ _, max_lt (by omega) (by omega)⟩, ⟨hz0, hz1⟩⟩
  have gzu : in_grid p (x, y, min (z + 1) (p.npez - 1)) :=
    ⟨⟨hx0, hx1⟩, ⟨hy0, hy1⟩, ⟨le_min (by omega) (by omega), min_lt_of_right_lt (by omega)⟩⟩
  have gzd : in_grid p (x, y, max (z - 1) 0) :=
    ⟨⟨hx0, hx1⟩, ⟨hy0, hy1⟩, ⟨le_max_right _ _, max_lt (by omega) (by omega)⟩⟩
  have sxd : ri.xdown = ri.rank ↔ x = 0 := by
    rw [nxd, hrank, leq _ _ gxd hgrid, Prod.mk.injEq]; simp only [and_true]; omega
  have sxu : ri.xup = ri.rank ↔ x = p.npex - 1 := by
    rw [nxu, hrank, leq _ _ gxu hgrid, Prod.mk.injEq]; simp only [and_true]; omega
  have syd : ri.ydown = ri.rank ↔ y = 0 := by
    rw [nyd, hrank, leq _ _ gyd hgrid]; simp only [Prod.mk.injEq, and_true, true_and]; omega
  have syu : ri.yup = ri.rank ↔ y = p.npey - 1 := by
    rw [nyu, hrank, leq _ _ gyu hgrid]; simp only [Prod.mk.injEq, and_true, true_and]; omega
  have szd : ri.zdown = ri.rank ↔ z = 0 := by
    rw [nzd, hrank, leq _ _ gzd hgrid]; simp only [Prod.mk.injEq, and_true, true_and]; omega
  have szu : ri.zup = ri.rank ↔ z = p.npez - 1 := by
    rw [nzu, hrank, leq _ _ gzu hgrid]; simp only [Prod.mk.injEq, and_true, true_and]; omega
  refine ⟨ri, hg, bxl.trans sxd.symm, bxu.trans sxu.symm, byl.trans syd.symm,
    byu.trans syu.symm, bzl.trans szd.symm, bzu.trans szu.symm, ?_, ?_⟩
  · intro octant istep jstep kstep hi hj hk past b n code hmem
    have h := (mem_recv_trace_iff (mpi_at lookup (x, y, z)) cl_ok octant istep jstep kstep p ri
      (fun _ _ => rfl) (fun _ _ => rfl) past b ri.rank).1 ⟨n, code, hmem⟩
    rcases h with ⟨-, hng, hsrc⟩ | ⟨-, hng, hsrc⟩ | ⟨-, hng, hsrc⟩
    · rcases hi with rfl | rfl
      · simp only [if_true] at hsrc
        exact hng (Or.inl ⟨rfl, bxu.2 (sxu.1 hsrc.symm)⟩)
      · simp only [show ¬((1 : Int) = -1) by decide, if_false] at hsrc
        exact hng (Or.inr ⟨rfl, bxl.2 (sxd.1 hsrc.symm)⟩)
    · rcases hj with rfl | rfl
      · simp only [if_true] at hsrc
        exact hng (Or.inl ⟨rfl, byu.2 (syu.1 hsrc.symm)⟩)
      · simp only [show ¬((1 : Int) = -1) by decide, if_false] at hsrc
        exact hng (Or.inr ⟨rfl, byl.2 (syd.1 hsrc.symm)⟩)
    · rcases hk with rfl | rfl
      · simp only [if_true] at hsrc
        exact hng (Or.inl ⟨rfl, bzu.2 (szu.1 hsrc.symm)⟩)
      · simp only [show ¬((1 : Int) = -1) by decide, if_false] at hsrc
        exact hng (Or.inr ⟨rfl, bzl.2 (szd.1 hsrc.symm)⟩)
  · intro x' y' z' hc'
    obtain ⟨ri', hg', hrank', nxu', nxd', nyu', nyd', nzu', nzd', bxl', bxu', byl', byu',
      bzl', bzu'⟩ := geometry_facts p lookup nx_r ny_r nz_r x' y' z' hnx hny hnz h1x h1y h1z hc'
    have hgrid' := hc'
    obtain ⟨⟨hx0', hx1'⟩, ⟨hy0', hy1'⟩, ⟨hz0', hz1'⟩⟩ := hc'
    simp only at hx0' hx1' hy0' hy1' hz0' hz1'
    have gxu' : in_grid p (min (x' + 1) (p.npex - 1), y', z') :=
      ⟨⟨le_min (by omega) (by omega), min_lt_of_right_lt (by omega)⟩, ⟨hy0', hy1'⟩,
        ⟨hz0', hz1'⟩⟩
    have gxd' : in_grid p (max (x' - 1) 0, y', z') :=
      ⟨⟨le_max_right _ _, max_lt (by omega) (by omega)⟩, ⟨hy0', hy1'⟩, ⟨hz0', hz1'⟩⟩
    have gyu' : in_grid p (x', min (y' + 1) (p.npey - 1), z') :=
      ⟨⟨hx0', hx1'⟩, ⟨le_min (by omega) (by omega), min_lt_of_right_lt (by omega)⟩,
        ⟨hz0', hz1'⟩⟩
    have gyd' : in_grid p (x', max (y' - 1) 0, z') :=
      ⟨⟨hx0', hx1'⟩, ⟨le_max_right _ _, max_lt (by omega) (by omega)⟩, ⟨hz0', hz1'⟩⟩
    have gzu' : in_grid p (x', y', min (z' + 1) (p.npez - 1)) :=
      ⟨⟨hx0', hx1'⟩, ⟨hy0', hy1'⟩,
        ⟨le_min (by omega) (by omega), min_lt_of_right_lt (by omega)⟩⟩
    have gzd' : in_grid p (x', y', max (z' - 1) 0) :=
      ⟨⟨hx0', hx1'⟩, ⟨hy0', hy1'⟩, ⟨le_max_right _ _, max_lt (by omega) (by omega)⟩⟩
    refine ⟨ri', hg', ?_⟩
    intro octant istep jstep kstep hi hj hk past past' b
    rw [mem_send_trace_iff (mpi_at lookup (x, y, z)) cl_ok octant istep jstep kstep p ri
        (fun _ _ => rfl) (fun _ _ => rfl) past b ri'.rank,
      mem_recv_trace_iff (mpi_at lookup (x', y', z')) cl_ok octant istep jstep kstep p ri'
        (fun _ _ => rfl) (fun _ _ => rfl) past' b ri.rank]
    simp only [ne_eq, sxd, sxu, syd, syu, szd, szu, bxl', bxu', byl', byu', bzl', bzu']
    rw [hrank, hrank', nxu, nxd, nyu, nyd, nzu, nzd, nxu', nxd', nyu', nyd', nzu', nzd']
    have one_ne : ¬((1 : Int) = -1) := by decide
    have neg_ne : ¬((-1 : Int) = 1) := by decide
    cases b
    · simp only [true_and, reduceCtorEq, false_and, or_false]
      rcases hi with rfl | rfl
      · simp only [true_and, neg_ne, false_and, and_false, or_false, if_true,
          leq _ _ hgrid' gxd, leq _ _ hgrid gxu', Prod.mk.injEq]
        omega
      · simp only [true_and, one_ne, false_and, false_or, not_false_eq_true, or_false,
          if_false, leq _ _ hgrid' gxu, leq _ _ hgrid gxd', Prod.mk.injEq]
        omega
    · simp only [true_and, reduceCtorEq, false_and, or_false, false_or]
      rcases hj with rfl | rfl
      · simp only [true_and, neg_ne, false_and, and_false, or_false, if_true,
          leq _ _ hgrid' gyd, leq _ _ hgrid gyu', Prod.mk.injEq]
        omega
      · simp only [true_and, one_ne, false_and, false_or, not_false_eq_true, or_false,
          if_false, leq _ _ hgrid' gyu, leq _ _ hgrid gyd', Prod.mk.injEq]
        omega
    · simp only [true_and, reduceCtorEq, false_and, or_false, false_or]
      rcases hk with rfl | rfl
      · simp only [true_and, neg_ne, false_and, and_false, or_false, if_true,
          leq _ _ hgrid' gzd, leq _ _ hgrid gzu', Prod.mk.injEq]
        omega
      · simp only [true_and, one_ne, false_and, false_or, not_false_eq_true, or_false,
          if_false, leq _ _ hgrid' gzu, leq _ _ hgrid gzd', Prod.mk.injEq]
        omega

theorem halo_exchange_matched_witness :
    in_grid problem_s3 (0, 0, 0) ∧
    ∃ ri, setup_geometry (row_major problem_s3) problem_s3 (0, 0, 0) = some ri ∧
      (ri.ilb = 0 ↔ ri.xdown = ri.rank) ∧ (ri.iub = problem_s3.nx ↔ ri.xup = ri.rank) := by
  have hgrid : in_grid problem_s3 (0, 0, 0) :=
    ⟨⟨by decide, by decide⟩, ⟨by decide, by decide⟩, ⟨by decide, by decide⟩⟩
  obtain ⟨ri, hg, h1, h2, -⟩ :=
    halo_exchange_matched problem_s3 (row_major problem_s3) 4 4 4 0 0 0
      (by decide) (by decide) (by decide) (by decide) (by decide) (by decide)
      (fun c c' hc hc' h => row_major_s3_injective c c' hc hc' h) hgrid
  exact ⟨hgrid, ri, hg, h1, h2⟩

end Snap
